import Mathlib

/-!
Verification development for the AI Verse → YOLO dataset converter
(`convert.py`).  The Python source is shallowly embedded below:

* Python floats are modelled as exact rationals (`ℚ`); every arithmetic
  operation performed by the converter (comparison, `min`/`max`, `+`, `-`,
  `/` by image dimensions) is exact on the inputs of interest, so the
  rational model mirrors the float code symbol for symbol.
* Python dicts (which preserve insertion order and update in place) are
  modelled as association lists with `insertDict` / `lookupD`.
* Filesystem effects (copying images, writing label files) are modelled as
  explicit fields of the run state; the scene directory is modelled by the
  list of file names it contains plus an existence predicate for declared
  (possibly nested) relative paths.
* Fallible steps return `Except String`; raising under `--strict` is an
  `Except.error`, the tolerant branch returns the untouched state.
-/

namespace AiverseYolo

/-- Python `dict` lookup (`d[k]` / `k in d`): first binding for the key. -/
def lookupD {α β : Type} [DecidableEq α] : List (α × β) → α → Option β
  | [], _ => none
  | p :: m, k => if p.1 = k then some p.2 else lookupD m k

/-- Python `dict` assignment `d[k] = v`: replace in place if the key is
already bound (keeping its position), otherwise append a new binding. -/
def insertDict {α β : Type} [DecidableEq α] : List (α × β) → α → β → List (α × β)
  | [], k, v => [(k, v)]
  | p :: m, k, v => if p.1 = k then (k, v) :: m else p :: insertDict m k v

/-- Python truthiness of an optional string: `None` and `""` are falsy. -/
def truthy : Option String → Bool
  | none => false
  | some s => ¬ s = ""

/-- Python `c or s` on optional strings: `c` if truthy, else `s`. -/
def pyOr (c s : Option String) : Option String :=
  if truthy c then c else s

/-- Final path component: Python `p.split("/")[-1]`, also used for
`Path(p).name` (declared filenames carry no trailing slash). -/
def lastComponent (p : String) : String :=
  String.mk (p.toList.foldl (fun acc c => if c = '/' then [] else acc ++ [c]) [])

/-- Index (from the front) of the last occurrence of `'.'`, if any. -/
def lastDotIdx (cs : List Char) : Option Nat :=
  (cs.foldl (fun st c =>
      match st with
      | (i, r) => (i + 1, if c = '.' then some i else r)) ((0 : Nat), none)).2

/-- Python `Path(n).stem`: drop the last extension.  `pathlib` keeps the
name whole when the last dot is at position 0 or at the very end. -/
def pathStem (n : String) : String :=
  let cs := n.toList
  match lastDotIdx cs with
  | none => n
  | some i => if 0 < i ∧ i < cs.length - 1 then String.mk (cs.take i) else n

/-- Boolean `String` "starts with" via the underlying character lists
(Python `name.startswith(pre)`). -/
def strStartsWith (s p : String) : Bool :=
  p.toList.isPrefixOf s.toList

/-- Boolean `String` "ends with" via the underlying character lists
(matching `scene_dir.glob("*" + ext)` on file names). -/
def strEndsWith (s p : String) : Bool :=
  p.toList.isSuffixOf s.toList

/-! ## Data model (annotation document, `convert.py` §input) -/

/-- One entry of the `instances` array.  Only the fields the converter
consumes are modelled; `cls` stands for the JSON key `"class"` (a Lean
keyword).  `bbox` is a list of rationals, absent when the key is missing. -/
structure Instance where
  image_id : Option Int
  cls : Option String
  subclass : Option String
  superclass : Option String
  path : Option String
  bbox : Option (List ℚ)
deriving DecidableEq

/-- One entry of the `images` array: id, value at the filename key
(default `file_name`), optional width/height. -/
structure ImageEntry where
  id : Option Int
  file_name : Option String
  width : Option ℚ
  height : Option ℚ
deriving DecidableEq

/-- Parsed `scene_instances.json`. -/
structure AnnotationDoc where
  images : List ImageEntry
  instances : List Instance
deriving DecidableEq

/-- The image-metadata value stored in `img_map` for one image id. -/
structure Meta where
  file_name : Option String
  width : Option ℚ
  height : Option ℚ
deriving DecidableEq

/-- A scene directory: the names of the files directly inside it (in
directory-listing order, as `Path.glob` enumerates them) and an existence
test for declared relative paths (which may contain subdirectories). -/
structure SceneDir where
  listing : List String
  exists_rel : String → Bool

/-- One discovered scene: directory name, its directory contents, the
parse result of its annotation document (`none` = unreadable/unparseable),
and the image-dimensions capability (PIL `Image.open(...).size`, `none`
when the fallback fails). -/
structure Scene where
  name : String
  dir : SceneDir
  doc : Option AnnotationDoc
  dims_of : String → Option (Int × Int)

/-- The configuration surface relevant to the core (from `parse_args`). -/
structure Config where
  label_field : String
  image_extensions : List String
  strict : Bool

/-! ## Pure helpers of `convert.py` -/

/-- `max(0, min(v, lim))` — one coordinate clamp from `yolo_bbox`. -/
def clampC (v lim : ℚ) : ℚ := max 0 (min v lim)

/-- `yolo_bbox` (convert.py:45-57): clamp each coordinate independently to
`[0, w-1]` / `[0, h-1]`, floor the extents at 0, take centers, divide by
the image dimensions.  Returns `(cx, cy, bw, bh)` as in the source; the
source's shadowing re-assignments are written as `x0/x1/y0/y1`. -/
def yolo_bbox (xmin ymin xmax ymax w h : ℚ) : ℚ × ℚ × ℚ × ℚ :=
  let x0 := clampC xmin (w - 1)
  let x1 := clampC xmax (w - 1)
  let y0 := clampC ymin (h - 1)
  let y1 := clampC ymax (h - 1)
  let bw := max 0 (x1 - x0)
  let bh := max 0 (y1 - y0)
  let cx := x0 + bw / 2
  let cy := y0 + bh / 2
  (cx / w, cy / h, bw / w, bh / h)

/-- The post-clamp horizontal extent `bw` computed by `yolo_bbox`. -/
def clampedW (xmin xmax w : ℚ) : ℚ :=
  max 0 (clampC xmax (w - 1) - clampC xmin (w - 1))

/-- The post-clamp vertical extent `bh` computed by `yolo_bbox`. -/
def clampedH (ymin ymax h : ℚ) : ℚ :=
  max 0 (clampC ymax (h - 1) - clampC ymin (h - 1))

/-- The caller's degeneracy test (convert.py:237): `bw <= 0 or bh <= 0` on
the normalized outputs. -/
def degenTest (r : ℚ × ℚ × ℚ × ℚ) : Prop :=
  r.2.2.1 ≤ 0 ∨ r.2.2.2 ≤ 0

/-- `label_from_instance` (convert.py:59-78).  Mirrors the Python
truthiness tests of the `class_subclass` arm (`if c and s` / `c or s`). -/
def label_from_instance (inst : Instance) (mode : String) : Option String :=
  if mode = "class" then inst.cls
  else if mode = "subclass" then inst.subclass
  else if mode = "superclass" then inst.superclass
  else if mode = "path" then
    match inst.path with
    | some p => some (lastComponent p)
    | none => none
  else if mode = "class_subclass" then
    if truthy inst.cls && truthy inst.subclass then
      some ((inst.cls.getD "") ++ "/" ++ (inst.subclass.getD ""))
    else pyOr inst.cls inst.subclass
  else none

/-- Files of the scene directory matching `glob("*" + ext)`, in listing
order. -/
def globMatches (d : SceneDir) (ext : String) : List String :=
  d.listing.filter (fun n => strEndsWith n ext)

/-- The extension-fallback loop of `resolve_image_path` (convert.py:99-105):
for each extension, prefer the first `beauty.`-prefixed candidate, then the
first candidate; otherwise try the next extension. -/
def resolveByExts (d : SceneDir) : List String → Option String
  | [] => none
  | ext :: rest =>
    let cand := globMatches d ext
    let beauty := cand.filter (fun n => strStartsWith n ("beauty."))
    match beauty with
    | b :: _ => some b
    | [] =>
      match cand with
      | c :: _ => some c
      | [] => resolveByExts d rest

/-- `resolve_image_path` (convert.py:87-106).  Paths are returned relative
to the scene directory; resolved paths exist by construction, so the
caller's redundant `src_img.exists()` re-check is omitted. -/
def resolve_image_path (d : SceneDir) (fname : Option String) (exts : List String) :
    Option String :=
  if truthy fname then
    let f := fname.getD ""
    if d.exists_rel f then some f
    else
      let base := lastComponent f
      if d.exists_rel base then some base
      else resolveByExts d exts
  else resolveByExts d exts

/-- The Class Registry update (convert.py:214-216): `if lab not in classes:
classes[lab] = next_cid; next_cid += 1`.  Returns the new dict and counter. -/
def registerLabel (cs : List (String × Nat)) (next_cid : Nat) (lab : String) :
    List (String × Nat) × Nat :=
  if (lookupD cs lab).isNone then (cs ++ [(lab, next_cid)], next_cid + 1)
  else (cs, next_cid)

/-! ## Scene Processor state -/

/-- One emitted YOLO label line (class id plus the four normalized
geometric values; the 6-decimal text rendering is not modelled). -/
structure LabelLine where
  cid : Nat
  cx : ℚ
  cy : ℚ
  bw : ℚ
  bh : ℚ
deriving DecidableEq

/-- Run statistics (convert.py:148). -/
structure Stats where
  images : Nat
  instances : Nat
  skipped_instances : Nat
  scenes : Nat
deriving DecidableEq

/-- The whole mutable state of `main`: the Class Registry (`classes` and
`next_cid`), the statistics, and the output tree (names of copied images;
label files as name → content, overwritten on rewrite). -/
structure ConvState where
  classes : List (String × Nat)
  next_cid : Nat
  stats : Stats
  out_images : List String
  out_labels : List (String × List LabelLine)
deriving DecidableEq

/-- The loop state while processing the instances of one image: the global
registry and skip counter threaded through, the per-image cached
width/height locals, and the accumulated label lines. -/
structure ImgLoop where
  classes : List (String × Nat)
  next_cid : Nat
  skipped : Nat
  w : Option ℚ
  h : Option ℚ
  lines : List LabelLine
deriving DecidableEq

/-- The body of the per-instance loop (convert.py:208-241), for one
instance: label extraction, registry update, bbox lookup/shape check, lazy
dimension resolution (caching `w`,`h`; strict mode raises on failure,
tolerant mode skips without counting, as in the source), normalization,
degeneracy check, line emission. -/
def stepInstance (strict : Bool) (dims_of : String → Option (Int × Int))
    (src_img : String) (mode : String) (s : ImgLoop) (inst : Instance) :
    Except String ImgLoop :=
  match label_from_instance inst mode with
  | none => Except.ok { s with skipped := s.skipped + 1 }
  | some lab =>
    let reg := registerLabel s.classes s.next_cid lab
    let cid := (lookupD reg.1 lab).getD 0
    match inst.bbox with
    | none => Except.ok { s with classes := reg.1, next_cid := reg.2, skipped := s.skipped + 1 }
    | some bbox =>
      if bbox.length = 4 then
        let xmin := bbox.getD 0 0
        let ymin := bbox.getD 1 0
        let xmax := bbox.getD 2 0
        let ymax := bbox.getD 3 0
        match s.w, s.h with
        | some w, some h =>
          let r := yolo_bbox xmin ymin xmax ymax w h
          if r.2.2.1 ≤ 0 ∨ r.2.2.2 ≤ 0 then
            Except.ok { s with classes := reg.1, next_cid := reg.2, skipped := s.skipped + 1 }
          else
            Except.ok { s with classes := reg.1, next_cid := reg.2,
                               lines := s.lines ++ [⟨cid, r.1, r.2.1, r.2.2.1, r.2.2.2⟩] }
        | _, _ =>
          match dims_of src_img with
          | some wh =>
            let w : ℚ := (wh.1 : ℚ)
            let h : ℚ := (wh.2 : ℚ)
            let r := yolo_bbox xmin ymin xmax ymax w h
            if r.2.2.1 ≤ 0 ∨ r.2.2.2 ≤ 0 then
              Except.ok { s with classes := reg.1, next_cid := reg.2,
                                 skipped := s.skipped + 1, w := some w, h := some h }
            else
              Except.ok { s with classes := reg.1, next_cid := reg.2,
                                 w := some w, h := some h,
                                 lines := s.lines ++ [⟨cid, r.1, r.2.1, r.2.2.1, r.2.2.2⟩] }
          | none =>
            if strict then Except.error ("Missing width or height for " ++ src_img)
            else Except.ok { s with classes := reg.1, next_cid := reg.2 }
      else
        Except.ok { s with classes := reg.1, next_cid := reg.2, skipped := s.skipped + 1 }

/-- Sequential effectful loop: stop at the first error (a raised exception
aborts the run), otherwise thread the state. -/
def runList {σ α : Type} (f : σ → α → Except String σ) : σ → List α → Except String σ
  | s, [] => Except.ok s
  | s, a :: l =>
    match f s a with
    | Except.error e => Except.error e
    | Except.ok s' => runList f s' l

/-- Output label-file name for a derived image name (convert.py:200). -/
def labelName (new_name : String) : String := pathStem new_name ++ ".txt"

/-- The per-image body (convert.py:187-245): resolve the source image
(missing → warn/skip or raise), derive the output name, copy unless
already present, run the instance loop, write the label file
(unconditionally, overwriting any previous content) and bump the
image/instance counters. -/
def processImage (cfg : Config) (scene : Scene) (insts : List Instance)
    (st : ConvState) (meta : Meta) : Except String ConvState :=
  match resolve_image_path scene.dir meta.file_name cfg.image_extensions with
  | none =>
    if cfg.strict then Except.error ("Missing image in " ++ scene.name)
    else Except.ok st
  | some src_img =>
    let new_name := scene.name ++ "_" ++ lastComponent src_img
    let out_images :=
      if new_name ∈ st.out_images then st.out_images else st.out_images ++ [new_name]
    let init : ImgLoop :=
      ⟨st.classes, st.next_cid, st.stats.skipped_instances, meta.width, meta.height, []⟩
    match runList (stepInstance cfg.strict scene.dims_of src_img cfg.label_field) init insts with
    | Except.error e => Except.error e
    | Except.ok s =>
      Except.ok
        { classes := s.classes
          next_cid := s.next_cid
          stats :=
            { images := st.stats.images + 1
              instances := st.stats.instances + s.lines.length
              skipped_instances := s.skipped
              scenes := st.stats.scenes }
          out_images := out_images
          out_labels := insertDict st.out_labels (labelName new_name) s.lines }

/-- `img_map` construction (convert.py:165-171): a dict keyed by image id. -/
def imgMap (images : List ImageEntry) : List (Option Int × Meta) :=
  images.foldl (fun m im => insertDict m im.id ⟨im.file_name, im.width, im.height⟩) []

/-- The keys of `img_map` (= the keys of `per_image`). -/
def imgKeys (images : List ImageEntry) : List (Option Int) :=
  (imgMap images).map (fun p => p.1)

/-- `per_image[iid]` (convert.py:173-180): the instances attached to one
image id, in input order. -/
def instsFor (insts : List Instance) (iid : Option Int) : List Instance :=
  insts.filter (fun i => decide (i.image_id = iid))

/-- Instances whose image id matches no image entry, counted as skipped
while `per_image` is built (convert.py:176-179). -/
def orphanCount (doc : AnnotationDoc) : Nat :=
  (doc.instances.filter (fun i => ¬ (imgKeys doc.images).contains i.image_id)).length

/-- One iteration of the scene loop (convert.py:151-245): bump the scene
counter, parse (failure → warn/skip or raise), build the maps (counting
orphans), then process every image of `img_map` in insertion order. -/
def processScene (cfg : Config) (st : ConvState) (scene : Scene) : Except String ConvState :=
  let st1 := { st with stats := { st.stats with scenes := st.stats.scenes + 1 } }
  match scene.doc with
  | none =>
    if cfg.strict then Except.error ("Failed to read " ++ scene.name)
    else Except.ok st1
  | some doc =>
    let st2 := { st1 with stats :=
      { st1.stats with skipped_instances := st1.stats.skipped_instances + orphanCount doc } }
    runList
      (fun s p => processImage cfg scene (instsFor doc.instances p.1) s p.2)
      st2 (imgMap doc.images)

/-- The state `main` starts from (convert.py:146-148). -/
def initState : ConvState := ⟨[], 0, ⟨0, 0, 0, 0⟩, [], []⟩

/-- The whole conversion run over the discovered scenes, up to the final
manifest emission. -/
def runScenes (cfg : Config) (scenes : List Scene) : Except String ConvState :=
  runList (processScene cfg) initState scenes

/-- The `inv` list `main` hands to `write_data_yaml` (convert.py:248-250):
a `len(classes)`-slot list with `inv[v] = k` for every binding. -/
def invList (cs : List (String × Nat)) : List (Option String) :=
  cs.foldl (fun acc kv => acc.set kv.2 (some kv.1)) (List.replicate cs.length none)

/-- The Class Registry invariant: the counter equals the number of
bindings, the ids are `0, 1, …` in insertion order, and no label is bound
twice. -/
def RegOk (cs : List (String × Nat)) (next_cid : Nat) : Prop :=
  next_cid = cs.length ∧ cs.map Prod.snd = List.range cs.length ∧ (cs.map Prod.fst).Nodup

/-! ## Generic loop lemmas -/

theorem runList_ok_ind {σ α : Type} (f : σ → α → Except String σ) (P : σ → Prop)
    (hstep : ∀ s a s', f s a = Except.ok s' → P s → P s') :
    ∀ (l : List α) (s t : σ), runList f s l = Except.ok t → P s → P t := by
  intro l
  induction l with
  | nil =>
    intro s t h hp
    simp only [runList] at h
    cases h
    exact hp
  | cons a l ih =>
    intro s t h hp
    simp only [runList] at h
    cases hfa : f s a with
    | error e => rw [hfa] at h; cases h
    | ok s' =>
      rw [hfa] at h
      exact ih s' t h (hstep s a s' hfa hp)

theorem runList_error_ind {σ α : Type} (f : σ → α → Except String σ) :
    ∀ (l : List α) (s : σ) (e : String), runList f s l = Except.error e →
      ∃ s' a, a ∈ l ∧ f s' a = Except.error e := by
  intro l
  induction l with
  | nil =>
    intro s e h
    simp only [runList] at h
    cases h
  | cons a l ih =>
    intro s e h
    simp only [runList] at h
    cases hfa : f s a with
    | error e' =>
      rw [hfa] at h
      cases h
      exact ⟨s, a, List.mem_cons_self a l, hfa⟩
    | ok s' =>
      rw [hfa] at h
      obtain ⟨s'', a', ha', he⟩ := ih s' e h
      exact ⟨s'', a', List.mem_cons_of_mem a ha', he⟩

theorem runList_ok_total {σ α : Type} (f : σ → α → Except String σ)
    (h : ∀ s a, ∃ s', f s a = Except.ok s') :
    ∀ (l : List α) (s : σ), ∃ t, runList f s l = Except.ok t := by
  intro l s
  cases hr : runList f s l with
  | ok t => exact ⟨t, rfl⟩
  | error e =>
    obtain ⟨s', a, _, he⟩ := runList_error_ind f l s e hr
    obtain ⟨t, ht⟩ := h s' a
    rw [ht] at he
    cases he

/-! ## Dictionary lemmas -/

theorem lookupD_eq_none_iff {α β : Type} [DecidableEq α] (m : List (α × β)) (k : α) :
    lookupD m k = none ↔ ∀ p ∈ m, p.1 ≠ k := by
  induction m with
  | nil => simp [lookupD]
  | cons p m ih =>
    by_cases hk : p.1 = k <;> simp [lookupD, hk, ih]

theorem lookupD_append_self {α β : Type} [DecidableEq α] (m : List (α × β)) (k : α) (v : β)
    (h : lookupD m k = none) : lookupD (m ++ [(k, v)]) k = some v := by
  induction m with
  | nil => simp [lookupD]
  | cons p m ih =>
    by_cases hk : p.1 = k
    · simp [lookupD, hk] at h
    · simp only [List.cons_append]
      simp only [lookupD, hk, if_false] at h
      simp only [lookupD, hk, if_false]
      exact ih h

theorem mem_insertDict {α β : Type} [DecidableEq α] (m : List (α × β)) (k : α) (v : β)
    (p : α × β) (h : p ∈ insertDict m k v) : p ∈ m ∨ p = (k, v) := by
  induction m with
  | nil =>
    simp only [insertDict, List.mem_singleton] at h
    exact Or.inr h
  | cons q m ih =>
    by_cases hk : q.1 = k
    · simp only [insertDict, hk, if_true] at h
      rcases List.mem_cons.mp h with h | h
      · right; exact h
      · left; exact List.mem_cons_of_mem _ h
    · simp only [insertDict, hk, if_false] at h
      rcases List.mem_cons.mp h with h | h
      · left; simp [h]
      · rcases ih h with h | h
        · left; exact List.mem_cons_of_mem _ h
        · right; exact h

theorem lookupD_insertDict_self {α β : Type} [DecidableEq α] (m : List (α × β)) (k : α) (v : β) :
    lookupD (insertDict m k v) k = some v := by
  induction m with
  | nil => simp [insertDict, lookupD]
  | cons q m ih =>
    by_cases hk : q.1 = k
    · simp [insertDict, hk, lookupD]
    · simp [insertDict, hk, lookupD, ih]

/-! ## Class Registry lemmas -/

theorem registerLabel_regOk (cs : List (String × Nat)) (n : Nat) (lab : String)
    (h : RegOk cs n) : RegOk (registerLabel cs n lab).1 (registerLabel cs n lab).2 := by
  obtain ⟨hlen, hids, hnd⟩ := h
  cases hl : lookupD cs lab with
  | some v => simpa [registerLabel, hl] using ⟨hlen, hids, hnd⟩
  | none =>
    have hnotin : ∀ p ∈ cs, p.1 ≠ lab := (lookupD_eq_none_iff cs lab).mp hl
    have hlab : lab ∉ List.map Prod.fst cs := by
      intro hmem
      obtain ⟨p, hp, hpx⟩ := List.mem_map.mp hmem
      exact hnotin p hp hpx
    refine ⟨?_, ?_, ?_⟩ <;> simp only [registerLabel, hl, Option.isNone_none, if_true]
    · simp [hlen]
    · rw [List.map_append, hids, hlen]
      simp only [List.map_cons, List.map_nil, List.length_append, List.length_singleton]
      rw [List.range_succ]
    · rw [List.map_append]
      simp only [List.map_cons, List.map_nil]
      rw [List.nodup_append]
      exact ⟨hnd, List.nodup_singleton lab, by simpa using hlab⟩

theorem registerLabel_lookup_isSome (cs : List (String × Nat)) (n : Nat) (lab : String) :
    (lookupD (registerLabel cs n lab).1 lab).isSome := by
  cases hl : lookupD cs lab with
  | some v => simp [registerLabel, hl]
  | none => simp [registerLabel, hl, lookupD_append_self cs lab n hl]

theorem regOk_mem_lt (cs : List (String × Nat)) (n : Nat) (h : RegOk cs n) :
    ∀ p ∈ cs, p.2 < n := by
  intro p hp
  obtain ⟨hlen, hids, -⟩ := h
  have : p.2 ∈ cs.map Prod.snd := List.mem_map.mpr ⟨p, hp, rfl⟩
  rw [hids] at this
  rw [hlen]
  exact List.mem_range.mp this

/-! ## `inv` (manifest order) lemmas -/

theorem take_succ_set {β : Type} (v : β) :
    ∀ (acc : List β) (k : Nat), k < acc.length →
      (acc.set k v).take (k + 1) = acc.take k ++ [v] := by
  intro acc
  induction acc with
  | nil => intro k h; simp at h
  | cons a tl ih =>
    intro k h
    cases k with
    | zero => simp
    | succ k =>
      simp only [List.set_cons_succ, List.take_succ_cons, List.cons_append]
      rw [ih k (by simpa using h)]

theorem foldl_set_eq :
    ∀ (cs : List (String × Nat)) (k : Nat) (acc : List (Option String)),
      cs.map Prod.snd = List.range' k cs.length →
      acc.length = k + cs.length →
      cs.foldl (fun a kv => a.set kv.2 (some kv.1)) acc
        = acc.take k ++ cs.map (fun p => some p.1) := by
  intro cs
  induction cs with
  | nil =>
    intro k acc _ hl
    simp only [List.foldl_nil, List.map_nil, List.append_nil]
    simp only [List.length_nil] at hl
    exact (List.take_of_length_le (by omega)).symm
  | cons p tl ih =>
    intro k acc h hl
    simp only [List.map_cons, List.length_cons, List.range'_succ] at h
    have hp2 : p.2 = k := (List.cons.injEq _ _ _ _).mp h |>.1
    have htl : tl.map Prod.snd = List.range' (k + 1) tl.length :=
      (List.cons.injEq _ _ _ _).mp h |>.2
    have hk : k < acc.length := by simp at hl; omega
    simp only [List.foldl_cons, hp2]
    rw [ih (k + 1) (acc.set k (some p.1)) htl (by simp at hl ⊢; omega)]
    rw [take_succ_set (some p.1) acc k hk]
    simp [List.map_cons]

theorem invList_eq (cs : List (String × Nat))
    (h : cs.map Prod.snd = List.range cs.length) :
    invList cs = cs.map (fun p => some p.1) := by
  unfold invList
  rw [foldl_set_eq cs 0 (List.replicate cs.length none)
      (by rw [h, List.range_eq_range']) (by simp)]
  simp

/-! ## `stepInstance` case lemmas -/

theorem stepInstance_label_none (strict : Bool) (d : String → Option (Int × Int))
    (src : String) (mode : String) (s : ImgLoop) (inst : Instance)
    (h : label_from_instance inst mode = none) :
    stepInstance strict d src mode s inst = Except.ok { s with skipped := s.skipped + 1 } := by
  simp [stepInstance, h]

theorem stepInstance_bbox_none (strict : Bool) (d : String → Option (Int × Int))
    (src : String) (mode : String) (s : ImgLoop) (inst : Instance) (lab : String)
    (hl : label_from_instance inst mode = some lab) (hb : inst.bbox = none) :
    stepInstance strict d src mode s inst =
      Except.ok { s with classes := (registerLabel s.classes s.next_cid lab).1,
                         next_cid := (registerLabel s.classes s.next_cid lab).2,
                         skipped := s.skipped + 1 } := by
  simp [stepInstance, hl, hb]

theorem stepInstance_bbox_malformed (strict : Bool) (d : String → Option (Int × Int))
    (src : String) (mode : String) (s : ImgLoop) (inst : Instance) (lab : String)
    (bbox : List ℚ) (hl : label_from_instance inst mode = some lab)
    (hb : inst.bbox = some bbox) (hlen : bbox.length ≠ 4) :
    stepInstance strict d src mode s inst =
      Except.ok { s with classes := (registerLabel s.classes s.next_cid lab).1,
                         next_cid := (registerLabel s.classes s.next_cid lab).2,
                         skipped := s.skipped + 1 } := by
  simp [stepInstance, hl, hb, hlen]

theorem stepInstance_degen (strict : Bool) (d : String → Option (Int × Int))
    (src : String) (mode : String) (s : ImgLoop) (inst : Instance) (lab : String)
    (bbox : List ℚ) (w h : ℚ)
    (hl : label_from_instance inst mode = some lab) (hb : inst.bbox = some bbox)
    (hlen : bbox.length = 4) (hw : s.w = some w) (hh : s.h = some h)
    (hdeg : degenTest (yolo_bbox (bbox.getD 0 0) (bbox.getD 1 0) (bbox.getD 2 0)
      (bbox.getD 3 0) w h)) :
    stepInstance strict d src mode s inst =
      Except.ok { s with classes := (registerLabel s.classes s.next_cid lab).1,
                         next_cid := (registerLabel s.classes s.next_cid lab).2,
                         skipped := s.skipped + 1 } := by
  simp only [stepInstance, hl, hb, hlen, hw, hh, if_true, degenTest] at hdeg ⊢
  rw [if_pos hdeg]

theorem stepInstance_emit (strict : Bool) (d : String → Option (Int × Int))
    (src : String) (mode : String) (s : ImgLoop) (inst : Instance) (lab : String)
    (bbox : List ℚ) (w h : ℚ)
    (hl : label_from_instance inst mode = some lab) (hb : inst.bbox = some bbox)
    (hlen : bbox.length = 4) (hw : s.w = some w) (hh : s.h = some h)
    (hdeg : ¬ degenTest (yolo_bbox (bbox.getD 0 0) (bbox.getD 1 0) (bbox.getD 2 0)
      (bbox.getD 3 0) w h)) :
    stepInstance strict d src mode s inst =
      Except.ok { s with classes := (registerLabel s.classes s.next_cid lab).1,
                         next_cid := (registerLabel s.classes s.next_cid lab).2,
                         lines := s.lines ++
                           [⟨(lookupD (registerLabel s.classes s.next_cid lab).1 lab).getD 0,
                             (yolo_bbox (bbox.getD 0 0) (bbox.getD 1 0) (bbox.getD 2 0)
                               (bbox.getD 3 0) w h).1,
                             (yolo_bbox (bbox.getD 0 0) (bbox.getD 1 0) (bbox.getD 2 0)
                               (bbox.getD 3 0) w h).2.1,
                             (yolo_bbox (bbox.getD 0 0) (bbox.getD 1 0) (bbox.getD 2 0)
                               (bbox.getD 3 0) w h).2.2.1,
                             (yolo_bbox (bbox.getD 0 0) (bbox.getD 1 0) (bbox.getD 2 0)
                               (bbox.getD 3 0) w h).2.2.2⟩] } := by
  simp only [stepInstance, hl, hb, hlen, hw, hh, if_true, degenTest] at hdeg ⊢
  rw [if_neg hdeg]

theorem stepInstance_dims_ok_degen (strict : Bool) (d : String → Option (Int × Int))
    (src : String) (mode : String) (s : ImgLoop) (inst : Instance) (lab : String)
    (bbox : List ℚ) (wh : Int × Int)
    (hl : label_from_instance inst mode = some lab) (hb : inst.bbox = some bbox)
    (hlen : bbox.length = 4) (hwh : s.w = none ∨ s.h = none) (hd : d src = some wh)
    (hdeg : degenTest (yolo_bbox (bbox.getD 0 0) (bbox.getD 1 0) (bbox.getD 2 0)
      (bbox.getD 3 0) (wh.1 : ℚ) (wh.2 : ℚ))) :
    stepInstance strict d src mode s inst =
      Except.ok { s with classes := (registerLabel s.classes s.next_cid lab).1,
                         next_cid := (registerLabel s.classes s.next_cid lab).2,
                         skipped := s.skipped + 1,
                         w := some (wh.1 : ℚ), h := some (wh.2 : ℚ) } := by
  simp only [degenTest] at hdeg
  rcases hw : s.w with _ | w <;> rcases hh : s.h with _ | h <;>
    simp_all [stepInstance, hl, hb, hlen, hd]

theorem stepInstance_dims_ok_emit (strict : Bool) (d : String → Option (Int × Int))
    (src : String) (mode : String) (s : ImgLoop) (inst : Instance) (lab : String)
    (bbox : List ℚ) (wh : Int × Int)
    (hl : label_from_instance inst mode = some lab) (hb : inst.bbox = some bbox)
    (hlen : bbox.length = 4) (hwh : s.w = none ∨ s.h = none) (hd : d src = some wh)
    (hdeg : ¬ degenTest (yolo_bbox (bbox.getD 0 0) (bbox.getD 1 0) (bbox.getD 2 0)
      (bbox.getD 3 0) (wh.1 : ℚ) (wh.2 : ℚ))) :
    stepInstance strict d src mode s inst =
      Except.ok { s with classes := (registerLabel s.classes s.next_cid lab).1,
                         next_cid := (registerLabel s.classes s.next_cid lab).2,
                         w := some (wh.1 : ℚ), h := some (wh.2 : ℚ),
                         lines := s.lines ++
                           [⟨(lookupD (registerLabel s.classes s.next_cid lab).1 lab).getD 0,
                             (yolo_bbox (bbox.getD 0 0) (bbox.getD 1 0) (bbox.getD 2 0)
                               (bbox.getD 3 0) (wh.1 : ℚ) (wh.2 : ℚ)).1,
                             (yolo_bbox (bbox.getD 0 0) (bbox.getD 1 0) (bbox.getD 2 0)
                               (bbox.getD 3 0) (wh.1 : ℚ) (wh.2 : ℚ)).2.1,
                             (yolo_bbox (bbox.getD 0 0) (bbox.getD 1 0) (bbox.getD 2 0)
                               (bbox.getD 3 0) (wh.1 : ℚ) (wh.2 : ℚ)).2.2.1,
                             (yolo_bbox (bbox.getD 0 0) (bbox.getD 1 0) (bbox.getD 2 0)
                               (bbox.getD 3 0) (wh.1 : ℚ) (wh.2 : ℚ)).2.2.2⟩] } := by
  simp only [degenTest] at hdeg
  rcases hw : s.w with _ | w <;> rcases hh : s.h with _ | h <;>
    simp_all [stepInstance, hl, hb, hlen, hd]

theorem stepInstance_dims_fail (strict : Bool) (d : String → Option (Int × Int))
    (src : String) (mode : String) (s : ImgLoop) (inst : Instance) (lab : String)
    (bbox : List ℚ)
    (hl : label_from_instance inst mode = some lab) (hb : inst.bbox = some bbox)
    (hlen : bbox.length = 4) (hwh : s.w = none ∨ s.h = none) (hd : d src = none) :
    stepInstance strict d src mode s inst =
      (if strict then Except.error ("Missing width or height for " ++ src)
       else Except.ok { s with classes := (registerLabel s.classes s.next_cid lab).1,
                               next_cid := (registerLabel s.classes s.next_cid lab).2 }) := by
  rcases hw : s.w with _ | w <;> rcases hh : s.h with _ | h <;>
    simp_all [stepInstance, hl, hb, hlen, hd]

/-- Outcome classification for one instance step: on success the registry
is untouched or updated through `registerLabel`, the skip counter never
decreases, and at most one line — with strictly positive extents — is
appended. -/
theorem stepInstance_spec (strict : Bool) (d : String → Option (Int × Int))
    (src : String) (mode : String) (s : ImgLoop) (inst : Instance) (s' : ImgLoop)
    (h : stepInstance strict d src mode s inst = Except.ok s') :
    ((s'.classes = s.classes ∧ s'.next_cid = s.next_cid) ∨
      (∃ lab, label_from_instance inst mode = some lab ∧
        s'.classes = (registerLabel s.classes s.next_cid lab).1 ∧
        s'.next_cid = (registerLabel s.classes s.next_cid lab).2)) ∧
    s.skipped ≤ s'.skipped ∧
    (s'.lines = s.lines ∨
      ∃ L : LabelLine, s'.lines = s.lines ++ [L] ∧ 0 < L.bw ∧ 0 < L.bh) := by
  cases hl : label_from_instance inst mode with
  | none =>
    rw [stepInstance_label_none strict d src mode s inst hl] at h
    injection h with h
    subst h
    exact ⟨Or.inl ⟨rfl, rfl⟩, Nat.le_succ _, Or.inl rfl⟩
  | some lab =>
    have hreg : ∀ t : ImgLoop,
        t.classes = (registerLabel s.classes s.next_cid lab).1 →
        t.next_cid = (registerLabel s.classes s.next_cid lab).2 →
        ((t.classes = s.classes ∧ t.next_cid = s.next_cid) ∨
          (∃ l, (some lab : Option String) = some l ∧
            t.classes = (registerLabel s.classes s.next_cid l).1 ∧
            t.next_cid = (registerLabel s.classes s.next_cid l).2)) :=
      fun t h1 h2 => Or.inr ⟨lab, rfl, h1, h2⟩
    cases hb : inst.bbox with
    | none =>
      rw [stepInstance_bbox_none strict d src mode s inst lab hl hb] at h
      injection h with h
      subst h
      exact ⟨hreg _ rfl rfl, Nat.le_succ _, Or.inl rfl⟩
    | some bbox =>
      by_cases hlen : bbox.length = 4
      · have hwh : (∃ w h', s.w = some w ∧ s.h = some h') ∨ (s.w = none ∨ s.h = none) := by
          rcases s.w with _ | w
          · exact Or.inr (Or.inl rfl)
          · rcases s.h with _ | h'
            · exact Or.inr (Or.inr rfl)
            · exact Or.inl ⟨w, h', rfl, rfl⟩
        rcases hwh with ⟨w, h', hw, hh⟩ | hwh
        · by_cases hdeg : degenTest (yolo_bbox (bbox.getD 0 0) (bbox.getD 1 0)
            (bbox.getD 2 0) (bbox.getD 3 0) w h')
          · rw [stepInstance_degen strict d src mode s inst lab bbox w h'
              hl hb hlen hw hh hdeg] at h
            injection h with h
            subst h
            exact ⟨hreg _ rfl rfl, Nat.le_succ _, Or.inl rfl⟩
          · rw [stepInstance_emit strict d src mode s inst lab bbox w h'
              hl hb hlen hw hh hdeg] at h
            injection h with h
            subst h
            refine ⟨hreg _ rfl rfl, le_refl _, Or.inr ⟨_, rfl, ?_, ?_⟩⟩ <;>
              · simp only [degenTest, not_or, not_le] at hdeg
                first
                | exact hdeg.1
                | exact hdeg.2
        · cases hd : d src with
          | some wh =>
            by_cases hdeg : degenTest (yolo_bbox (bbox.getD 0 0) (bbox.getD 1 0)
              (bbox.getD 2 0) (bbox.getD 3 0) (wh.1 : ℚ) (wh.2 : ℚ))
            · rw [stepInstance_dims_ok_degen strict d src mode s inst lab bbox wh
                hl hb hlen hwh hd hdeg] at h
              injection h with h
              subst h
              exact ⟨hreg _ rfl rfl, Nat.le_succ _, Or.inl rfl⟩
            · rw [stepInstance_dims_ok_emit strict d src mode s inst lab bbox wh
                hl hb hlen hwh hd hdeg] at h
              injection h with h
              subst h
              refine ⟨hreg _ rfl rfl, le_refl _, Or.inr ⟨_, rfl, ?_, ?_⟩⟩ <;>
                · simp only [degenTest, not_or, not_le] at hdeg
                  first
                  | exact hdeg.1
                  | exact hdeg.2
          | none =>
            rw [stepInstance_dims_fail strict d src mode s inst lab bbox
              hl hb hlen hwh hd] at h
            cases strict with
            | true => simp at h
            | false =>
              simp only [if_false, Bool.false_eq_true] at h
              injection h with h
              subst h
              exact ⟨hreg _ rfl rfl, le_refl _, Or.inl rfl⟩
      · rw [stepInstance_bbox_malformed strict d src mode s inst lab bbox hl hb hlen] at h
        injection h with h
        subst h
        exact ⟨hreg _ rfl rfl, Nat.le_succ _, Or.inl rfl⟩

/-- When not strict, one instance step never raises. -/
theorem stepInstance_false_ok (d : String → Option (Int × Int))
    (src : String) (mode : String) (s : ImgLoop) (inst : Instance) :
    ∃ s', stepInstance false d src mode s inst = Except.ok s' := by
  cases hl : label_from_instance inst mode with
  | none => exact ⟨_, stepInstance_label_none false d src mode s inst hl⟩
  | some lab =>
    cases hb : inst.bbox with
    | none => exact ⟨_, stepInstance_bbox_none false d src mode s inst lab hl hb⟩
    | some bbox =>
      by_cases hlen : bbox.length = 4
      · rcases hw : s.w with _ | w
        · cases hd : d src with
          | some wh =>
            by_cases hdeg : degenTest (yolo_bbox (bbox.getD 0 0) (bbox.getD 1 0)
              (bbox.getD 2 0) (bbox.getD 3 0) (wh.1 : ℚ) (wh.2 : ℚ))
            · exact ⟨_, stepInstance_dims_ok_degen false d src mode s inst lab bbox wh
                hl hb hlen (Or.inl hw) hd hdeg⟩
            · exact ⟨_, stepInstance_dims_ok_emit false d src mode s inst lab bbox wh
                hl hb hlen (Or.inl hw) hd hdeg⟩
          | none =>
            have hstep := stepInstance_dims_fail false d src mode s inst lab bbox
              hl hb hlen (Or.inl hw) hd
            rw [if_neg (by simp)] at hstep
            exact ⟨_, hstep⟩
        · rcases hh : s.h with _ | h'
          · cases hd : d src with
            | some wh =>
              by_cases hdeg : degenTest (yolo_bbox (bbox.getD 0 0) (bbox.getD 1 0)
                (bbox.getD 2 0) (bbox.getD 3 0) (wh.1 : ℚ) (wh.2 : ℚ))
              · exact ⟨_, stepInstance_dims_ok_degen false d src mode s inst lab bbox wh
                  hl hb hlen (Or.inr hh) hd hdeg⟩
              · exact ⟨_, stepInstance_dims_ok_emit false d src mode s inst lab bbox wh
                  hl hb hlen (Or.inr hh) hd hdeg⟩
            | none =>
              have hstep := stepInstance_dims_fail false d src mode s inst lab bbox
                hl hb hlen (Or.inr hh) hd
              rw [if_neg (by simp)] at hstep
              exact ⟨_, hstep⟩
          · by_cases hdeg : degenTest (yolo_bbox (bbox.getD 0 0) (bbox.getD 1 0)
              (bbox.getD 2 0) (bbox.getD 3 0) w h')
            · exact ⟨_, stepInstance_degen false d src mode s inst lab bbox w h'
                hl hb hlen hw hh hdeg⟩
            · exact ⟨_, stepInstance_emit false d src mode s inst lab bbox w h'
                hl hb hlen hw hh hdeg⟩
      · exact ⟨_, stepInstance_bbox_malformed false d src mode s inst lab bbox hl hb hlen⟩

/-- An instance step can only raise under `--strict`. -/
theorem stepInstance_error_strict (strict : Bool) (d : String → Option (Int × Int))
    (src : String) (mode : String) (s : ImgLoop) (inst : Instance) (e : String)
    (h : stepInstance strict d src mode s inst = Except.error e) : strict = true := by
  cases strict with
  | true => rfl
  | false =>
    obtain ⟨s', hs'⟩ := stepInstance_false_ok d src mode s inst
    rw [hs'] at h
    cases h

/-! ## `processImage` / `processScene` lemmas -/

/-- All lines of a label file have strictly positive extents. -/
def LinesPos (ls : List LabelLine) : Prop := ∀ l ∈ ls, 0 < l.bw ∧ 0 < l.bh

/-- Every label file written so far contains only positive-extent lines. -/
def LabelsPos (st : ConvState) : Prop := ∀ p ∈ st.out_labels, LinesPos p.2

theorem processImage_unresolved (cfg : Config) (scene : Scene) (insts : List Instance)
    (st : ConvState) (meta : Meta)
    (hres : resolve_image_path scene.dir meta.file_name cfg.image_extensions = none) :
    processImage cfg scene insts st meta =
      (if cfg.strict then Except.error ("Missing image in " ++ scene.name)
       else Except.ok st) := by
  simp [processImage, hres]

theorem processImage_resolved_ok (cfg : Config) (scene : Scene) (insts : List Instance)
    (st : ConvState) (meta : Meta) (src : String) (s : ImgLoop)
    (hres : resolve_image_path scene.dir meta.file_name cfg.image_extensions = some src)
    (hrun : runList (stepInstance cfg.strict scene.dims_of src cfg.label_field)
      ⟨st.classes, st.next_cid, st.stats.skipped_instances, meta.width, meta.height, []⟩
      insts = Except.ok s) :
    processImage cfg scene insts st meta =
      Except.ok
        { classes := s.classes
          next_cid := s.next_cid
          stats :=
            { images := st.stats.images + 1
              instances := st.stats.instances + s.lines.length
              skipped_instances := s.skipped
              scenes := st.stats.scenes }
          out_images :=
            if (scene.name ++ "_" ++ lastComponent src) ∈ st.out_images then st.out_images
            else st.out_images ++ [scene.name ++ "_" ++ lastComponent src]
          out_labels :=
            insertDict st.out_labels (labelName (scene.name ++ "_" ++ lastComponent src))
              s.lines } := by
  simp [processImage, hres, hrun]

theorem nodup_append_singleton {l : List String} {a : String}
    (h : l.Nodup) (ha : a ∉ l) : (l ++ [a]).Nodup := by
  rw [List.nodup_append]
  exact ⟨h, List.nodup_singleton a, by simpa using ha⟩

/-- Invariant preservation for one image: registry well-formedness, label
positivity, no duplicate image copy, and monotone skip counter. -/
theorem processImage_inv (cfg : Config) (scene : Scene) (insts : List Instance)
    (st : ConvState) (meta : Meta) (st' : ConvState)
    (h : processImage cfg scene insts st meta = Except.ok st') :
    (RegOk st.classes st.next_cid → RegOk st'.classes st'.next_cid) ∧
    (LabelsPos st → LabelsPos st') ∧
    (st.out_images.Nodup → st'.out_images.Nodup) ∧
    st.stats.skipped_instances ≤ st'.stats.skipped_instances := by
  cases hres : resolve_image_path scene.dir meta.file_name cfg.image_extensions with
  | none =>
    rw [processImage_unresolved cfg scene insts st meta hres] at h
    cases hstrict : cfg.strict with
    | true => rw [hstrict] at h; simp at h
    | false =>
      rw [hstrict] at h
      simp only [Bool.false_eq_true, if_false] at h
      injection h with h
      subst h
      exact ⟨id, id, id, le_refl _⟩
  | some src =>
    cases hrun : runList (stepInstance cfg.strict scene.dims_of src cfg.label_field)
        ⟨st.classes, st.next_cid, st.stats.skipped_instances, meta.width, meta.height, []⟩
        insts with
    | error e => simp [processImage, hres, hrun] at h
    | ok s =>
      rw [processImage_resolved_ok cfg scene insts st meta src s hres hrun] at h
      injection h with h
      subst h
      have hreg : RegOk st.classes st.next_cid → RegOk s.classes s.next_cid := by
        intro h0
        exact runList_ok_ind _ (fun t => RegOk t.classes t.next_cid)
          (by
            intro t a t' hstep ht
            rcases (stepInstance_spec _ _ _ _ _ _ _ hstep).1 with ⟨h1, h2⟩ | ⟨lab, -, h1, h2⟩
            · rw [h1, h2]; exact ht
            · rw [h1, h2]; exact registerLabel_regOk _ _ lab ht)
          insts _ s hrun h0
      have hlines : LinesPos s.lines := by
        exact runList_ok_ind _ (fun t => LinesPos t.lines)
          (by
            intro t a t' hstep ht
            rcases (stepInstance_spec _ _ _ _ _ _ _ hstep).2.2 with h1 | ⟨L, h1, h2, h3⟩
            · rw [h1]; exact ht
            · rw [h1]
              intro l hl
              rcases List.mem_append.mp hl with hl | hl
              · exact ht l hl
              · rcases List.mem_singleton.mp hl with rfl
                exact ⟨h2, h3⟩)
          insts _ s hrun (by intro l hl; cases hl)
      have hskip : st.stats.skipped_instances ≤ s.skipped := by
        exact runList_ok_ind _ (fun t => st.stats.skipped_instances ≤ t.skipped)
          (fun t a t' hstep ht => le_trans ht (stepInstance_spec _ _ _ _ _ _ _ hstep).2.1)
          insts _ s hrun (le_refl _)
      refine ⟨hreg, ?_, ?_, hskip⟩
      · intro h0 p hp
        rcases mem_insertDict _ _ _ p hp with hp | hp
        · exact h0 p hp
        · rw [hp]; exact hlines
      · intro h0
        by_cases hmem : (scene.name ++ "_" ++ lastComponent src) ∈ st.out_images
        · simpa [hmem] using h0
        · simp only [hmem, if_false]
          exact nodup_append_singleton h0 hmem

theorem processImage_false_ok (cfg : Config) (scene : Scene) (insts : List Instance)
    (st : ConvState) (meta : Meta) (hs : cfg.strict = false) :
    ∃ st', processImage cfg scene insts st meta = Except.ok st' := by
  cases hres : resolve_image_path scene.dir meta.file_name cfg.image_extensions with
  | none =>
    refine ⟨st, ?_⟩
    rw [processImage_unresolved cfg scene insts st meta hres, hs]
    simp
  | some src =>
    obtain ⟨s, hrun⟩ := runList_ok_total
      (stepInstance cfg.strict scene.dims_of src cfg.label_field)
      (by
        intro t inst
        rw [hs]
        exact stepInstance_false_ok scene.dims_of src cfg.label_field t inst)
      insts ⟨st.classes, st.next_cid, st.stats.skipped_instances, meta.width, meta.height, []⟩
    exact ⟨_, processImage_resolved_ok cfg scene insts st meta src s hres hrun⟩

theorem processScene_doc_none (cfg : Config) (st : ConvState) (scene : Scene)
    (hdoc : scene.doc = none) :
    processScene cfg st scene =
      (if cfg.strict then Except.error ("Failed to read " ++ scene.name)
       else Except.ok { st with stats := { st.stats with scenes := st.stats.scenes + 1 } }) := by
  simp [processScene, hdoc]

theorem processScene_doc_some (cfg : Config) (st : ConvState) (scene : Scene)
    (doc : AnnotationDoc) (hdoc : scene.doc = some doc) :
    processScene cfg st scene =
      runList (fun s p => processImage cfg scene (instsFor doc.instances p.1) s p.2)
        { st with stats :=
          { st.stats with scenes := st.stats.scenes + 1,
                          skipped_instances := st.stats.skipped_instances + orphanCount doc } }
        (imgMap doc.images) := by
  simp [processScene, hdoc]

/-- Invariant preservation for one scene. -/
theorem processScene_inv (cfg : Config) (st : ConvState) (scene : Scene) (st' : ConvState)
    (h : processScene cfg st scene = Except.ok st') :
    (RegOk st.classes st.next_cid → RegOk st'.classes st'.next_cid) ∧
    (LabelsPos st → LabelsPos st') ∧
    (st.out_images.Nodup → st'.out_images.Nodup) ∧
    st.stats.skipped_instances ≤ st'.stats.skipped_instances := by
  cases hdoc : scene.doc with
  | none =>
    rw [processScene_doc_none cfg st scene hdoc] at h
    cases hstrict : cfg.strict with
    | true => rw [hstrict] at h; simp at h
    | false =>
      rw [hstrict] at h
      simp only [Bool.false_eq_true, if_false] at h
      injection h with h
      subst h
      exact ⟨id, id, id, le_refl _⟩
  | some doc =>
    rw [processScene_doc_some cfg st scene doc hdoc] at h
    set st2 : ConvState :=
      { st with stats :=
        { st.stats with scenes := st.stats.scenes + 1,
                        skipped_instances := st.stats.skipped_instances + orphanCount doc } }
      with hst2
    refine ⟨?_, ?_, ?_, ?_⟩
    · intro h0
      exact runList_ok_ind _ (fun t => RegOk t.classes t.next_cid)
        (fun t a t' hstep ht => (processImage_inv cfg scene _ t a.2 t' hstep).1 ht)
        (imgMap doc.images) st2 st' h h0
    · intro h0
      exact runList_ok_ind _ LabelsPos
        (fun t a t' hstep ht => (processImage_inv cfg scene _ t a.2 t' hstep).2.1 ht)
        (imgMap doc.images) st2 st' h h0
    · intro h0
      exact runList_ok_ind _ (fun t => t.out_images.Nodup)
        (fun t a t' hstep ht => (processImage_inv cfg scene _ t a.2 t' hstep).2.2.1 ht)
        (imgMap doc.images) st2 st' h h0
    · have : st2.stats.skipped_instances ≤ st'.stats.skipped_instances :=
        runList_ok_ind _ (fun t => st2.stats.skipped_instances ≤ t.stats.skipped_instances)
          (fun t a t' hstep ht =>
            le_trans ht (processImage_inv cfg scene _ t a.2 t' hstep).2.2.2)
          (imgMap doc.images) st2 st' h (le_refl _)
      calc st.stats.skipped_instances ≤ st2.stats.skipped_instances := by
            rw [hst2]; exact Nat.le_add_right _ _
        _ ≤ st'.stats.skipped_instances := this

/-- In tolerant mode a scene never aborts the run. -/
theorem processScene_false_ok (cfg : Config) (st : ConvState) (scene : Scene)
    (hs : cfg.strict = false) : ∃ st', processScene cfg st scene = Except.ok st' := by
  cases hdoc : scene.doc with
  | none =>
    refine ⟨{ st with stats := { st.stats with scenes := st.stats.scenes + 1 } }, ?_⟩
    rw [processScene_doc_none cfg st scene hdoc, hs]
    simp
  | some doc =>
    rw [processScene_doc_some cfg st scene doc hdoc]
    exact runList_ok_total _
      (fun s p => processImage_false_ok cfg scene (instsFor doc.instances p.1) s p.2 hs)
      (imgMap doc.images) _

/-- Orphan counting: processing a parsed scene raises the skip counter by
at least the number of orphaned instances. -/
theorem processScene_orphans (cfg : Config) (st : ConvState) (scene : Scene)
    (doc : AnnotationDoc) (st' : ConvState) (hdoc : scene.doc = some doc)
    (h : processScene cfg st scene = Except.ok st') :
    st.stats.skipped_instances + orphanCount doc ≤ st'.stats.skipped_instances := by
  rw [processScene_doc_some cfg st scene doc hdoc] at h
  exact runList_ok_ind _
    (fun t => st.stats.skipped_instances + orphanCount doc ≤ t.stats.skipped_instances)
    (fun t a t' hstep ht => le_trans ht (processImage_inv cfg scene _ t a.2 t' hstep).2.2.2)
    (imgMap doc.images) _ st' h (le_refl _)

/-! ## Whole-run lemmas -/

theorem runScenes_false_ok (cfg : Config) (scenes : List Scene) (hs : cfg.strict = false) :
    ∃ st, runScenes cfg scenes = Except.ok st :=
  runList_ok_total _ (fun st scene => processScene_false_ok cfg st scene hs) scenes initState

theorem runScenes_error_strict (cfg : Config) (scenes : List Scene) (e : String)
    (h : runScenes cfg scenes = Except.error e) : cfg.strict = true := by
  cases hstrict : cfg.strict with
  | true => rfl
  | false =>
    obtain ⟨st, hst⟩ := runScenes_false_ok cfg scenes hstrict
    rw [hst] at h
    cases h

/-- Global invariants of any completed run. -/
theorem runScenes_inv (cfg : Config) (scenes : List Scene) (st : ConvState)
    (h : runScenes cfg scenes = Except.ok st) :
    RegOk st.classes st.next_cid ∧ LabelsPos st ∧ st.out_images.Nodup := by
  have := runList_ok_ind (processScene cfg)
    (fun t => RegOk t.classes t.next_cid ∧ LabelsPos t ∧ t.out_images.Nodup)
    (by
      intro t a t' hstep ht
      obtain ⟨h1, h2, h3, -⟩ := processScene_inv cfg t a t' hstep
      exact ⟨h1 ht.1, h2 ht.2.1, h3 ht.2.2⟩)
    scenes initState st h
  refine this ⟨⟨rfl, by simp [initState], by simp [initState]⟩, ?_, by simp [initState]⟩
  intro p hp
  simp [initState] at hp

/-- On every successful step whose label is present, the final registry is
exactly the one produced by `registerLabel` — the registry update happens
before the bbox is even looked at. -/
theorem stepInstance_label_registered (strict : Bool) (d : String → Option (Int × Int))
    (src : String) (mode : String) (s : ImgLoop) (inst : Instance) (lab : String)
    (s' : ImgLoop) (hl : label_from_instance inst mode = some lab)
    (h : stepInstance strict d src mode s inst = Except.ok s') :
    s'.classes = (registerLabel s.classes s.next_cid lab).1 ∧
    s'.next_cid = (registerLabel s.classes s.next_cid lab).2 := by
  cases hb : inst.bbox with
  | none =>
    rw [stepInstance_bbox_none strict d src mode s inst lab hl hb] at h
    injection h with h
    subst h
    exact ⟨rfl, rfl⟩
  | some bbox =>
    by_cases hlen : bbox.length = 4
    · have hwh : (∃ w h', s.w = some w ∧ s.h = some h') ∨ (s.w = none ∨ s.h = none) := by
        rcases s.w with _ | w
        · exact Or.inr (Or.inl rfl)
        · rcases s.h with _ | h'
          · exact Or.inr (Or.inr rfl)
          · exact Or.inl ⟨w, h', rfl, rfl⟩
      rcases hwh with ⟨w, h', hw, hh⟩ | hwh
      · by_cases hdeg : degenTest (yolo_bbox (bbox.getD 0 0) (bbox.getD 1 0)
          (bbox.getD 2 0) (bbox.getD 3 0) w h')
        · rw [stepInstance_degen strict d src mode s inst lab bbox w h'
            hl hb hlen hw hh hdeg] at h
          injection h with h
          subst h
          exact ⟨rfl, rfl⟩
        · rw [stepInstance_emit strict d src mode s inst lab bbox w h'
            hl hb hlen hw hh hdeg] at h
          injection h with h
          subst h
          exact ⟨rfl, rfl⟩
      · cases hd : d src with
        | some wh =>
          by_cases hdeg : degenTest (yolo_bbox (bbox.getD 0 0) (bbox.getD 1 0)
            (bbox.getD 2 0) (bbox.getD 3 0) (wh.1 : ℚ) (wh.2 : ℚ))
          · rw [stepInstance_dims_ok_degen strict d src mode s inst lab bbox wh
              hl hb hlen hwh hd hdeg] at h
            injection h with h
            subst h
            exact ⟨rfl, rfl⟩
          · rw [stepInstance_dims_ok_emit strict d src mode s inst lab bbox wh
              hl hb hlen hwh hd hdeg] at h
            injection h with h
            subst h
            exact ⟨rfl, rfl⟩
        | none =>
          rw [stepInstance_dims_fail strict d src mode s inst lab bbox hl hb hlen hwh hd] at h
          cases strict with
          | true => simp at h
          | false =>
            simp only [Bool.false_eq_true, if_false] at h
            injection h with h
            subst h
            exact ⟨rfl, rfl⟩
    · rw [stepInstance_bbox_malformed strict d src mode s inst lab bbox hl hb hlen] at h
      injection h with h
      subst h
      exact ⟨rfl, rfl⟩

theorem head_filter_eq_find {α : Type} (p : α → Bool) (l : List α) :
    (l.filter p).head? = l.find? p := by
  induction l with
  | nil => simp
  | cons a l ih =>
    cases hp : p a <;> simp [List.filter_cons, List.find?, hp, ih]

/-! ## Concrete fixtures (used by witnesses and counterexamples) -/

/-- Tolerant configuration with the default label mode and extensions. -/
def cfgTol : Config := ⟨"class", [".png", ".jpg", ".jpeg"], false⟩

/-- The end-to-end example scene of the spec (one image, one car). -/
def sceneCar : Scene :=
  { name := "sceneA"
    dir := { listing := ["beauty.0001.png", "scene_instances.json"]
             exists_rel := fun s => decide (s = "beauty.0001.png") }
    doc := some
      { images := [⟨some 1, some ("beauty.0001.png"), some 100, some 50⟩]
        instances := [⟨some 1, some ("car"), none, none, none, some [10, 10, 60, 40]⟩] }
    dims_of := fun _ => none }

theorem run_sceneCar : runScenes cfgTol [sceneCar] = Except.ok
    ⟨[("car", 0)], 1, ⟨1, 1, 0, 1⟩, ["sceneA_beauty.0001.png"],
     [("sceneA_beauty.0001.txt", [⟨0, 7/20, 1/2, 1/2, 3/5⟩])]⟩ := by
  norm_num [runScenes, runList, processScene, processImage, stepInstance, initState,
    cfgTol, sceneCar, imgMap, instsFor, orphanCount, imgKeys, insertDict, lookupD,
    resolve_image_path, resolveByExts, globMatches, truthy, lastComponent, labelName,
    pathStem, lastDotIdx, strStartsWith, strEndsWith, label_from_instance,
    registerLabel, yolo_bbox, clampC, min_def, max_def]
  rfl

/-- A scene whose only instance has a label but no bbox key. -/
def sceneGhost : Scene :=
  { name := "sA"
    dir := { listing := ["img.png"], exists_rel := fun s => decide (s = "img.png") }
    doc := some
      { images := [⟨some 1, some ("img.png"), some 10, some 10⟩]
        instances := [⟨some 1, some ("ghost"), none, none, none, none⟩] }
    dims_of := fun _ => none }

theorem run_sceneGhost : runScenes cfgTol [sceneGhost] = Except.ok
    ⟨[("ghost", 0)], 1, ⟨1, 0, 1, 1⟩, ["sA_img.png"], [("sA_img.txt", [])]⟩ := by
  norm_num [runScenes, runList, processScene, processImage, stepInstance, initState,
    cfgTol, sceneGhost, imgMap, instsFor, orphanCount, imgKeys, insertDict, lookupD,
    resolve_image_path, resolveByExts, globMatches, truthy, lastComponent, labelName,
    pathStem, lastDotIdx, strStartsWith, strEndsWith, label_from_instance,
    registerLabel, yolo_bbox, clampC, min_def, max_def]
  rfl

/-- A scene with two image entries that resolve to the same source file,
hence derive the same output filename. -/
def sceneDup : Scene :=
  { name := "sB"
    dir := { listing := ["img.png"], exists_rel := fun s => decide (s = "img.png") }
    doc := some
      { images := [⟨some 1, some ("img.png"), some 10, some 10⟩,
                   ⟨some 2, some ("img.png"), some 10, some 10⟩]
        instances := [⟨some 1, some ("a"), none, none, none, some [0, 0, 5, 5]⟩,
                      ⟨some 2, some ("b"), none, none, none, some [0, 0, 5, 5]⟩] }
    dims_of := fun _ => none }

theorem run_sceneDup : runScenes cfgTol [sceneDup] = Except.ok
    ⟨[("a", 0), ("b", 1)], 2, ⟨2, 2, 0, 1⟩, ["sB_img.png"],
     [("sB_img.txt", [⟨1, 1/4, 1/4, 1/2, 1/2⟩])]⟩ := by
  norm_num [runScenes, runList, processScene, processImage, stepInstance, initState,
    cfgTol, sceneDup, imgMap, instsFor, orphanCount, imgKeys, insertDict, lookupD,
    resolve_image_path, resolveByExts, globMatches, truthy, lastComponent, labelName,
    pathStem, lastDotIdx, strStartsWith, strEndsWith, label_from_instance,
    registerLabel, yolo_bbox, clampC, min_def, max_def]
  rfl

/-- A scene with one orphan instance (its image id matches no image). -/
def sceneOrphan : Scene :=
  { name := "sO"
    dir := { listing := ["img.png"], exists_rel := fun s => decide (s = "img.png") }
    doc := some
      { images := [⟨some 1, some ("img.png"), some 10, some 10⟩]
        instances := [⟨some 2, some ("x"), none, none, none, some [0, 0, 5, 5]⟩] }
    dims_of := fun _ => none }

theorem run_sceneOrphan : processScene cfgTol initState sceneOrphan = Except.ok
    ⟨[], 0, ⟨1, 0, 1, 1⟩, ["sO_img.png"], [("sO_img.txt", [])]⟩ := by
  norm_num [runList, processScene, processImage, stepInstance, initState,
    cfgTol, sceneOrphan, imgMap, instsFor, orphanCount, imgKeys, insertDict, lookupD,
    resolve_image_path, resolveByExts, globMatches, truthy, lastComponent, labelName,
    pathStem, lastDotIdx, strStartsWith, strEndsWith, label_from_instance,
    registerLabel, yolo_bbox, clampC, min_def, max_def]
  rfl

/-! ## Claim theorems -/

/-- Claim C3: the Class Registry assigns ids in strict first-seen order
starting at 0 and is append-only: in every state reached by a run, the
counter equals the number of labels, the ids are `0,1,…` in insertion
order (so the manifest `inv` list is exactly the labels ordered by
ascending id, 0-based and contiguous), a new label is appended with the
current counter value — strictly above every id already present — and a
repeat occurrence leaves registry and counter unchanged. -/
theorem C3_registry_first_seen (cfg : Config) (scenes : List Scene) (st : ConvState)
    (h : runScenes cfg scenes = Except.ok st) :
    RegOk st.classes st.next_cid ∧
    st.classes.map Prod.snd = List.range st.classes.length ∧
    invList st.classes = st.classes.map (fun p => some p.1) ∧
    (∀ lab, lookupD st.classes lab = none →
      registerLabel st.classes st.next_cid lab
        = (st.classes ++ [(lab, st.next_cid)], st.next_cid + 1) ∧
      lookupD (st.classes ++ [(lab, st.next_cid)]) lab = some st.next_cid ∧
      ∀ p ∈ st.classes, p.2 < st.next_cid) ∧
    (∀ lab cid, lookupD st.classes lab = some cid →
      registerLabel st.classes st.next_cid lab = (st.classes, st.next_cid)) := by
  have hro := (runScenes_inv cfg scenes st h).1
  refine ⟨hro, hro.2.1, invList_eq _ hro.2.1, ?_, ?_⟩
  · intro lab hl
    exact ⟨by simp [registerLabel, hl], lookupD_append_self _ _ _ hl,
      regOk_mem_lt _ _ hro⟩
  · intro lab cid hl
    simp [registerLabel, hl]

/-- Witness for C3 at the spec's end-to-end example run. -/
theorem C3_witness :
    invList [(("car" : String), 0)] = [some ("car")] ∧
    registerLabel [(("car" : String), 0)] 1 ("person")
      = ([(("car" : String), 0), ("person", 1)], 2) ∧
    registerLabel [(("car" : String), 0)] 1 ("car") = ([(("car" : String), 0)], 1) := by
  have h := C3_registry_first_seen cfgTol [sceneCar] _ run_sceneCar
  refine ⟨by simpa using h.2.2.1, ?_, ?_⟩
  · have := (h.2.2.2.1 ("person") (by decide)).1
    simpa using this
  · have := h.2.2.2.2 ("car") 0 (by decide)
    simpa using this

/-- Claim C4 counterexample: the box `(9.5, 9.5)–(9.75, 9.75)` in a
`10 × 10` image satisfies every hypothesis of the claim (positive extents,
fully inside `[0,width) × [0,height)`) yet normalizes to width 0, so the
claimed `0 < w` fails. -/
theorem C4_counterexample :
    (0 ≤ (19 : ℚ)/2 ∧ (19 : ℚ)/2 < 39/4 ∧ (39 : ℚ)/4 < 10) ∧
    ¬ (0 < (yolo_bbox ((19 : ℚ)/2) ((19 : ℚ)/2) ((39 : ℚ)/4) ((39 : ℚ)/4) 10 10).2.2.1) := by
  norm_num [yolo_bbox, clampC, min_def, max_def]

/-- Claim C4 (amended): for boxes with positive extents fully inside
`[0,width) × [0,height)` whose minimum corner additionally lies strictly
below `width-1` / `height-1` (so that clamping cannot collapse the box, as
the counterexample forces), normalization lands in `[0,1]` with strictly
positive sizes, and un-normalizing recovers the clamped coordinates. -/
theorem C4_normalization_bounds (xmin ymin xmax ymax w h : ℚ)
    (hx0 : 0 ≤ xmin) (hx1 : xmin < xmax) (hx2 : xmax < w) (hx3 : xmin < w - 1)
    (hy0 : 0 ≤ ymin) (hy1 : ymin < ymax) (hy2 : ymax < h) (hy3 : ymin < h - 1) :
    (0 ≤ (yolo_bbox xmin ymin xmax ymax w h).1 ∧
      (yolo_bbox xmin ymin xmax ymax w h).1 ≤ 1) ∧
    (0 ≤ (yolo_bbox xmin ymin xmax ymax w h).2.1 ∧
      (yolo_bbox xmin ymin xmax ymax w h).2.1 ≤ 1) ∧
    (0 < (yolo_bbox xmin ymin xmax ymax w h).2.2.1 ∧
      (yolo_bbox xmin ymin xmax ymax w h).2.2.1 ≤ 1) ∧
    (0 < (yolo_bbox xmin ymin xmax ymax w h).2.2.2 ∧
      (yolo_bbox xmin ymin xmax ymax w h).2.2.2 ≤ 1) ∧
    ((yolo_bbox xmin ymin xmax ymax w h).1 -
        (yolo_bbox xmin ymin xmax ymax w h).2.2.1 / 2) * w = clampC xmin (w - 1) ∧
    ((yolo_bbox xmin ymin xmax ymax w h).1 +
        (yolo_bbox xmin ymin xmax ymax w h).2.2.1 / 2) * w = clampC xmax (w - 1) ∧
    ((yolo_bbox xmin ymin xmax ymax w h).2.1 -
        (yolo_bbox xmin ymin xmax ymax w h).2.2.2 / 2) * h = clampC ymin (h - 1) ∧
    ((yolo_bbox xmin ymin xmax ymax w h).2.1 +
        (yolo_bbox xmin ymin xmax ymax w h).2.2.2 / 2) * h = clampC ymax (h - 1) := by
  have hw0 : (0 : ℚ) < w := by linarith
  have hh0 : (0 : ℚ) < h := by linarith
  have hwne : w ≠ 0 := ne_of_gt hw0
  have hhne : h ≠ 0 := ne_of_gt hh0
  have hcx0 : clampC xmin (w - 1) = xmin := by
    rw [clampC, min_eq_left (by linarith), max_eq_right hx0]
  have hcy0 : clampC ymin (h - 1) = ymin := by
    rw [clampC, min_eq_left (by linarith), max_eq_right hy0]
  have hXgt : xmin < min xmax (w - 1) := lt_min hx1 hx3
  have hYgt : ymin < min ymax (h - 1) := lt_min hy1 hy3
  have hcx1 : clampC xmax (w - 1) = min xmax (w - 1) := by
    rw [clampC, max_eq_right (by linarith)]
  have hcy1 : clampC ymax (h - 1) = min ymax (h - 1) := by
    rw [clampC, max_eq_right (by linarith)]
  have hXle : min xmax (w - 1) ≤ w - 1 := min_le_right _ _
  have hYle : min ymax (h - 1) ≤ h - 1 := min_le_right _ _
  simp only [yolo_bbox, hcx0, hcy0, hcx1, hcy1,
    max_eq_right (by linarith : (0 : ℚ) ≤ min xmax (w - 1) - xmin),
    max_eq_right (by linarith : (0 : ℚ) ≤ min ymax (h - 1) - ymin)]
  refine ⟨⟨?_, ?_⟩, ⟨?_, ?_⟩, ⟨?_, ?_⟩, ⟨?_, ?_⟩, ?_, ?_, ?_, ?_⟩
  · exact div_nonneg (by linarith) hw0.le
  · rw [div_le_one hw0]; linarith
  · exact div_nonneg (by linarith) hh0.le
  · rw [div_le_one hh0]; linarith
  · exact div_pos (by linarith) hw0
  · rw [div_le_one hw0]; linarith
  · exact div_pos (by linarith) hh0
  · rw [div_le_one hh0]; linarith
  · field_simp
    ring
  · field_simp
    ring
  · field_simp
    ring
  · field_simp
    ring

/-- Witness for C4 at the spec's example box `[10,10,60,40]` in `100×50`. -/
theorem C4_witness :
    0 < (yolo_bbox 10 10 60 40 100 50).2.2.1 ∧
    (yolo_bbox 10 10 60 40 100 50).1 ≤ 1 ∧
    ((yolo_bbox 10 10 60 40 100 50).1 -
      (yolo_bbox 10 10 60 40 100 50).2.2.1 / 2) * 100 = clampC 10 (100 - 1) := by
  have h := C4_normalization_bounds 10 10 60 40 100 50
    (by norm_num) (by norm_num) (by norm_num) (by norm_num)
    (by norm_num) (by norm_num) (by norm_num) (by norm_num)
  exact ⟨h.2.2.1.1, h.1.2, h.2.2.2.2.1⟩

/-- Claim C5: normalization is degenerate exactly when a post-clamp extent
is `≤ 0`; a box fully outside the bounds is degenerate; a degenerate
instance is skipped and counted, emitting no line; and no line of any
written label file ever carries a non-positive extent. -/
theorem C5_degenerate_boxes :
    (∀ xmin ymin xmax ymax w h : ℚ, 0 < w → 0 < h →
      (degenTest (yolo_bbox xmin ymin xmax ymax w h) ↔
        clampedW xmin xmax w ≤ 0 ∨ clampedH ymin ymax h ≤ 0)) ∧
    (∀ xmin ymin xmax ymax w h : ℚ, 0 < w → 0 < h →
      ((w - 1 ≤ xmin ∧ w - 1 ≤ xmax) ∨ (xmin ≤ 0 ∧ xmax ≤ 0) ∨
        (h - 1 ≤ ymin ∧ h - 1 ≤ ymax) ∨ (ymin ≤ 0 ∧ ymax ≤ 0)) →
      degenTest (yolo_bbox xmin ymin xmax ymax w h)) ∧
    (∀ (strict : Bool) (d : String → Option (Int × Int)) (src mode : String)
      (s : ImgLoop) (inst : Instance) (lab : String) (bbox : List ℚ) (w h : ℚ),
      label_from_instance inst mode = some lab → inst.bbox = some bbox →
      bbox.length = 4 → s.w = some w → s.h = some h →
      degenTest (yolo_bbox (bbox.getD 0 0) (bbox.getD 1 0) (bbox.getD 2 0)
        (bbox.getD 3 0) w h) →
      ∃ s', stepInstance strict d src mode s inst = Except.ok s' ∧
        s'.skipped = s.skipped + 1 ∧ s'.lines = s.lines) ∧
    (∀ cfg scenes st, runScenes cfg scenes = Except.ok st →
      ∀ p ∈ st.out_labels, ∀ l ∈ p.2, 0 < l.bw ∧ 0 < l.bh) := by
  have hiff : ∀ xmin ymin xmax ymax w h : ℚ, 0 < w → 0 < h →
      (degenTest (yolo_bbox xmin ymin xmax ymax w h) ↔
        clampedW xmin xmax w ≤ 0 ∨ clampedH ymin ymax h ≤ 0) := by
    intro xmin ymin xmax ymax w h hw hh
    have h1 : (yolo_bbox xmin ymin xmax ymax w h).2.2.1 = clampedW xmin xmax w / w := by
      simp [yolo_bbox, clampedW]
    have h2 : (yolo_bbox xmin ymin xmax ymax w h).2.2.2 = clampedH ymin ymax h / h := by
      simp [yolo_bbox, clampedH]
    rw [degenTest, h1, h2, div_le_iff₀ hw, div_le_iff₀ hh, zero_mul, zero_mul]
  refine ⟨hiff, ?_, ?_, ?_⟩
  · intro xmin ymin xmax ymax w h hw hh hout
    rw [hiff xmin ymin xmax ymax w h hw hh]
    rcases hout with ⟨ha, hb⟩ | ⟨ha, hb⟩ | ⟨ha, hb⟩ | ⟨ha, hb⟩
    · left
      rw [clampedW, clampC, clampC, min_eq_right ha, min_eq_right hb]
      simp
    · left
      rw [clampedW, clampC, clampC,
        max_eq_left (le_trans (min_le_left xmax (w - 1)) hb)]
      exact max_le le_rfl (by linarith [le_max_left (0 : ℚ) (min xmin (w - 1))])
    · right
      rw [clampedH, clampC, clampC, min_eq_right ha, min_eq_right hb]
      simp
    · right
      rw [clampedH, clampC, clampC,
        max_eq_left (le_trans (min_le_left ymax (h - 1)) hb)]
      exact max_le le_rfl (by linarith [le_max_left (0 : ℚ) (min ymin (h - 1))])
  · intro strict d src mode s inst lab bbox w h hl hb hlen hw hh hdeg
    exact ⟨_, stepInstance_degen strict d src mode s inst lab bbox w h
      hl hb hlen hw hh hdeg, rfl, rfl⟩
  · intro cfg scenes st h p hp l hl
    exact (runScenes_inv cfg scenes st h).2.1 p hp l hl

/-- An instance with a degenerate box in a `10×10` image. -/
def instEdge : Instance := ⟨some 1, some ("edge"), none, none, none, some [110, 0, 110, 5]⟩

/-- A mid-run instance-loop state with cached `10×10` dimensions. -/
def loopTen : ImgLoop := ⟨[], 0, 0, some 10, some 10, []⟩

/-- Witness for C5: the spec's fully-outside example box is degenerate and
its instance is skipped, counted, and emits no line. -/
theorem C5_witness :
    degenTest (yolo_bbox 110 0 110 5 10 10) ∧
    (∃ s', stepInstance true (fun _ => none) ("img.png") ("class") loopTen instEdge
        = Except.ok s' ∧ s'.skipped = 0 + 1 ∧ s'.lines = []) := by
  have h := C5_degenerate_boxes
  have hdeg : degenTest (yolo_bbox 110 0 110 5 10 10) :=
    h.2.1 110 0 110 5 10 10 (by norm_num) (by norm_num)
      (Or.inl ⟨by norm_num, by norm_num⟩)
  refine ⟨hdeg, ?_⟩
  have := h.2.2.1 true (fun _ => none) ("img.png") ("class") loopTen instEdge
    ("edge") [110, 0, 110, 5] 10 10 (by decide) rfl (by decide) rfl rfl
    (by simpa [instEdge] using hdeg)
  simpa [loopTen] using this

/-- Claim C6: only the three structural failures are gated by strict mode —
a tolerant run never raises, any raise happens under `--strict`, and each
structural failure raises exactly when strict — while the per-instance data
defects (absent label, missing or malformed bbox, degenerate bbox) never
raise even in strict mode and are counted in `skipped_instances`. -/
theorem C6_error_gating :
    (∀ cfg scenes, cfg.strict = false → ∃ st, runScenes cfg scenes = Except.ok st) ∧
    (∀ cfg scenes e, runScenes cfg scenes = Except.error e → cfg.strict = true) ∧
    (∀ (strict : Bool) (d : String → Option (Int × Int)) (src mode : String)
      (s : ImgLoop) (inst : Instance),
      label_from_instance inst mode = none →
      stepInstance strict d src mode s inst
        = Except.ok { s with skipped := s.skipped + 1 }) ∧
    (∀ (strict : Bool) (d : String → Option (Int × Int)) (src mode : String)
      (s : ImgLoop) (inst : Instance) (lab : String),
      label_from_instance inst mode = some lab →
      (inst.bbox = none ∨ ∃ bbox, inst.bbox = some bbox ∧ bbox.length ≠ 4) →
      ∃ s', stepInstance strict d src mode s inst = Except.ok s' ∧
        s'.skipped = s.skipped + 1 ∧ s'.lines = s.lines) ∧
    (∀ (strict : Bool) (d : String → Option (Int × Int)) (src mode : String)
      (s : ImgLoop) (inst : Instance) (lab : String) (bbox : List ℚ) (w h : ℚ),
      label_from_instance inst mode = some lab → inst.bbox = some bbox →
      bbox.length = 4 → s.w = some w → s.h = some h →
      degenTest (yolo_bbox (bbox.getD 0 0) (bbox.getD 1 0) (bbox.getD 2 0)
        (bbox.getD 3 0) w h) →
      ∃ s', stepInstance strict d src mode s inst = Except.ok s' ∧
        s'.skipped = s.skipped + 1 ∧ s'.lines = s.lines) ∧
    (∀ cfg st scene, scene.doc = none →
      processScene cfg st scene =
        (if cfg.strict then Except.error ("Failed to read " ++ scene.name)
         else Except.ok
           { st with stats := { st.stats with scenes := st.stats.scenes + 1 } })) ∧
    (∀ cfg scene insts st meta,
      resolve_image_path scene.dir meta.file_name cfg.image_extensions = none →
      processImage cfg scene insts st meta =
        (if cfg.strict then Except.error ("Missing image in " ++ scene.name)
         else Except.ok st)) ∧
    (∀ (strict : Bool) (d : String → Option (Int × Int)) (src mode : String)
      (s : ImgLoop) (inst : Instance) (lab : String) (bbox : List ℚ),
      label_from_instance inst mode = some lab → inst.bbox = some bbox →
      bbox.length = 4 → (s.w = none ∨ s.h = none) → d src = none →
      stepInstance strict d src mode s inst =
        (if strict then Except.error ("Missing width or height for " ++ src)
         else Except.ok { s with classes := (registerLabel s.classes s.next_cid lab).1,
                                 next_cid := (registerLabel s.classes s.next_cid lab).2 })) := by
  refine ⟨?_, ?_, ?_, ?_, ?_, ?_, ?_, ?_⟩
  · exact fun cfg scenes hs => runScenes_false_ok cfg scenes hs
  · exact fun cfg scenes e he => runScenes_error_strict cfg scenes e he
  · exact fun strict d src mode s inst hl =>
      stepInstance_label_none strict d src mode s inst hl
  · intro strict d src mode s inst lab hl hb
    rcases hb with hb | ⟨bbox, hb, hlen⟩
    · exact ⟨_, stepInstance_bbox_none strict d src mode s inst lab hl hb, rfl, rfl⟩
    · exact ⟨_, stepInstance_bbox_malformed strict d src mode s inst lab bbox hl hb hlen,
        rfl, rfl⟩
  · intro strict d src mode s inst lab bbox w h hl hb hlen hw hh hdeg
    exact ⟨_, stepInstance_degen strict d src mode s inst lab bbox w h
      hl hb hlen hw hh hdeg, rfl, rfl⟩
  · exact fun cfg st scene hdoc => processScene_doc_none cfg st scene hdoc
  · exact fun cfg scene insts st meta hres =>
      processImage_unresolved cfg scene insts st meta hres
  · exact fun strict d src mode s inst lab bbox hl hb hlen hwh hd =>
      stepInstance_dims_fail strict d src mode s inst lab bbox hl hb hlen hwh hd

/-- An instance carrying no label field at all. -/
def instNoLab : Instance := ⟨some 1, none, none, none, none, some [0, 0, 5, 5]⟩

/-- An instance whose label is present but whose bbox key is missing. -/
def instGhost : Instance := ⟨some 1, some ("ghost"), none, none, none, none⟩

/-- Witness for C6: in strict mode, a missing label and a missing bbox are
still tolerated (and counted), while a dimension failure raises. -/
theorem C6_witness :
    (stepInstance true (fun _ => none) ("i.png") ("class") loopTen instNoLab
      = Except.ok { loopTen with skipped := 0 + 1 }) ∧
    (∃ s', stepInstance true (fun _ => none) ("i.png") ("class") loopTen instGhost
      = Except.ok s' ∧ s'.skipped = 0 + 1 ∧ s'.lines = []) ∧
    (stepInstance true (fun _ => none) ("i.png") ("class")
        (⟨[], 0, 0, none, none, []⟩ : ImgLoop)
        (⟨some 1, some ("g"), none, none, none, some [0, 0, 5, 5]⟩ : Instance)
      = Except.error ("Missing width or height for " ++ "i.png")) := by
  have h := C6_error_gating
  refine ⟨?_, ?_, ?_⟩
  · have := h.2.2.1 true (fun _ => none) ("i.png") ("class") loopTen instNoLab (by decide)
    simpa [loopTen] using this
  · have := h.2.2.2.1 true (fun _ => none) ("i.png") ("class") loopTen instGhost
      ("ghost") (by decide) (Or.inl rfl)
    simpa [loopTen] using this
  · have := h.2.2.2.2.2.2.2 true (fun _ => none) ("i.png") ("class")
      (⟨[], 0, 0, none, none, []⟩ : ImgLoop)
      (⟨some 1, some ("g"), none, none, none, some [0, 0, 5, 5]⟩ : Instance)
      ("g") [0, 0, 5, 5] (by decide) rfl (by decide) (Or.inl rfl) rfl
    simpa using this

/-- Claim C7: an instance whose image id matches no image entry of its
document is counted into `skipped_instances` during map construction and
belongs to no per-image instance list, so it is never processed and never
contributes a label line. -/
theorem C7_orphan_instances (cfg : Config) (st : ConvState) (scene : Scene)
    (doc : AnnotationDoc) (st' : ConvState) (hdoc : scene.doc = some doc)
    (h : processScene cfg st scene = Except.ok st') :
    st.stats.skipped_instances + orphanCount doc ≤ st'.stats.skipped_instances ∧
    orphanCount doc =
      (doc.instances.filter
        (fun i => ¬ (imgKeys doc.images).contains i.image_id)).length ∧
    (∀ inst ∈ doc.instances, ¬ (imgKeys doc.images).contains inst.image_id = true →
      ∀ iid ∈ imgKeys doc.images, inst ∉ instsFor doc.instances iid) := by
  refine ⟨processScene_orphans cfg st scene doc st' hdoc h, rfl, ?_⟩
  intro inst _ hnotin iid hiid hininsts
  have hdec := List.of_mem_filter hininsts
  have heq : inst.image_id = iid := of_decide_eq_true hdec
  apply hnotin
  rw [heq]
  exact List.elem_eq_true_of_mem hiid

/-- Witness for C7 at the one-orphan scene. -/
theorem C7_witness :
    (initState.stats.skipped_instances + orphanCount
      { images := [⟨some 1, some ("img.png"), some 10, some 10⟩]
        instances := [⟨some 2, some ("x"), none, none, none, some [0, 0, 5, 5]⟩] } ≤ 1) ∧
    (⟨some 2, some ("x"), none, none, none, some [0, 0, 5, 5]⟩ : Instance) ∉
      instsFor [⟨some 2, some ("x"), none, none, none, some [0, 0, 5, 5]⟩] (some 1) := by
  have h := C7_orphan_instances cfgTol initState sceneOrphan
    { images := [⟨some 1, some ("img.png"), some 10, some 10⟩]
      instances := [⟨some 2, some ("x"), none, none, none, some [0, 0, 5, 5]⟩] }
    ⟨[], 0, ⟨1, 0, 1, 1⟩, ["sO_img.png"], [("sO_img.txt", [])]⟩ rfl run_sceneOrphan
  refine ⟨h.1, ?_⟩
  exact h.2.2 _ (List.mem_cons_self _ _) (by decide) (some 1) (by decide)

/-- Claim C8: for every resolved image whose instance loop completes, a
label file is written (present in the output map even with zero lines),
the images counter is incremented by one, and the instances counter by
exactly the number of emitted lines. -/
theorem C8_label_file_written (cfg : Config) (scene : Scene) (insts : List Instance)
    (st : ConvState) (meta : Meta) (src : String) (s : ImgLoop)
    (hres : resolve_image_path scene.dir meta.file_name cfg.image_extensions = some src)
    (hrun : runList (stepInstance cfg.strict scene.dims_of src cfg.label_field)
      ⟨st.classes, st.next_cid, st.stats.skipped_instances, meta.width, meta.height, []⟩
      insts = Except.ok s) :
    ∃ st', processImage cfg scene insts st meta = Except.ok st' ∧
      lookupD st'.out_labels (labelName (scene.name ++ "_" ++ lastComponent src))
        = some s.lines ∧
      st'.stats.images = st.stats.images + 1 ∧
      st'.stats.instances = st.stats.instances + s.lines.length := by
  refine ⟨_, processImage_resolved_ok cfg scene insts st meta src s hres hrun, ?_, rfl, rfl⟩
  exact lookupD_insertDict_self _ _ _

/-- Witness for C8: an image with zero instances still gets an (empty)
label file and bumps the image counter. -/
theorem C8_witness :
    ∃ st', processImage cfgTol sceneGhost [] initState ⟨some ("img.png"), some 10, some 10⟩
        = Except.ok st' ∧
      lookupD st'.out_labels ("sA_img.txt") = some [] ∧
      st'.stats.images = 1 ∧ st'.stats.instances = 0 := by
  obtain ⟨st', heq, hlook, him, hinst⟩ :=
    C8_label_file_written cfgTol sceneGhost [] initState
      ⟨some ("img.png"), some 10, some 10⟩ ("img.png")
      ⟨initState.classes, initState.next_cid, initState.stats.skipped_instances,
        some 10, some 10, []⟩
      (by decide) rfl
  have hname : labelName (sceneGhost.name ++ "_" ++ lastComponent ("img.png"))
      = "sA_img.txt" := by decide
  rw [hname] at hlook
  exact ⟨st', heq, hlook, by simpa [initState] using him, by simpa [initState] using hinst⟩

/-- Claim C9: image resolution is first-match-wins — declared filename
relative to the scene directory, then its final path component, then the
extension fallback which, per extension in caller order, returns the first
`beauty.`-prefixed file with that extension, else the first file with that
extension, else moves to the next extension; absent when nothing matches. -/
theorem C9_resolution_order :
    (∀ (d : SceneDir) (f : String) (exts : List String), ¬ f = "" →
      d.exists_rel f = true → resolve_image_path d (some f) exts = some f) ∧
    (∀ (d : SceneDir) (f : String) (exts : List String), ¬ f = "" →
      d.exists_rel f = false → d.exists_rel (lastComponent f) = true →
      resolve_image_path d (some f) exts = some (lastComponent f)) ∧
    (∀ (d : SceneDir) (f : String) (exts : List String), ¬ f = "" →
      d.exists_rel f = false → d.exists_rel (lastComponent f) = false →
      resolve_image_path d (some f) exts = resolveByExts d exts) ∧
    (∀ (d : SceneDir) (exts : List String),
      resolve_image_path d none exts = resolveByExts d exts) ∧
    (∀ (d : SceneDir) (ext : String) (rest : List String),
      resolveByExts d (ext :: rest) =
        match (globMatches d ext).find? (fun n => strStartsWith n ("beauty.")) with
        | some b => some b
        | none =>
          match (globMatches d ext).head? with
          | some c => some c
          | none => resolveByExts d rest) ∧
    (∀ d : SceneDir, resolveByExts d [] = none) := by
  refine ⟨?_, ?_, ?_, ?_, ?_, fun d => rfl⟩
  · intro d f exts hf hex
    simp [resolve_image_path, truthy, hf, hex]
  · intro d f exts hf hex hbase
    simp [resolve_image_path, truthy, hf, hex, hbase]
  · intro d f exts hf hex hbase
    simp [resolve_image_path, truthy, hf, hex, hbase]
  · intro d exts
    simp [resolve_image_path, truthy]
  · intro d ext rest
    rw [← head_filter_eq_find]
    cases hb : (globMatches d ext).filter (fun n => strStartsWith n ("beauty.")) with
    | nil =>
      cases hc : globMatches d ext with
      | nil => simp [resolveByExts, hb, hc]
      | cons c t =>
        rw [hc] at hb
        simp [resolveByExts, hb, hc]
    | cons b t => simp [resolveByExts, hb]

/-- A directory whose listing holds a `beauty.`-prefixed jpg after another
jpg, plus a nested declared path whose basename exists. -/
def dirBeauty : SceneDir :=
  ⟨["x.jpg", "beauty.4.jpg", "a.png"], fun s => decide (s = "b.png")⟩

/-- Witness for C9: stripping the directory of a declared filename, and the
`beauty.` preference within one extension. -/
theorem C9_witness :
    resolve_image_path dirBeauty (some ("dir/b.png")) [".png"]
      = some (lastComponent ("dir/b.png")) ∧
    resolveByExts dirBeauty [".jpg"] = some ("beauty.4.jpg") := by
  constructor
  · exact C9_resolution_order.2.1 dirBeauty ("dir/b.png") [".png"]
      (by decide) (by decide) (by decide)
  · rw [C9_resolution_order.2.2.2.2.1 dirBeauty (".jpg") []]
    decide

/-- Claim C10: an empty-string label field is not label-absent — in modes
`class`, `subclass`, `superclass` the extractor returns `some ""`, the skip
check fires only on `None`, so `""` is registered as a class of its own and
label lines are emitted for it; in mode `class_subclass` the truthiness
tests treat an empty-string field as absent when combining. -/
theorem C10_empty_label :
    (∀ inst : Instance, inst.cls = some ("") →
      label_from_instance inst ("class") = some ("")) ∧
    (∀ inst : Instance, inst.subclass = some ("") →
      label_from_instance inst ("subclass") = some ("")) ∧
    (∀ inst : Instance, inst.superclass = some ("") →
      label_from_instance inst ("superclass") = some ("")) ∧
    (∀ (strict : Bool) (d : String → Option (Int × Int)) (src mode : String)
      (s : ImgLoop) (inst : Instance) (lab : String) (s' : ImgLoop),
      label_from_instance inst mode = some lab →
      stepInstance strict d src mode s inst = Except.ok s' →
      (lookupD s'.classes lab).isSome) ∧
    (∀ (strict : Bool) (d : String → Option (Int × Int)) (src mode : String)
      (s : ImgLoop) (inst : Instance) (lab : String) (bbox : List ℚ) (w h : ℚ),
      label_from_instance inst mode = some lab → inst.bbox = some bbox →
      bbox.length = 4 → s.w = some w → s.h = some h →
      ¬ degenTest (yolo_bbox (bbox.getD 0 0) (bbox.getD 1 0) (bbox.getD 2 0)
        (bbox.getD 3 0) w h) →
      ∃ s' cid, stepInstance strict d src mode s inst = Except.ok s' ∧
        lookupD s'.classes lab = some cid ∧
        s'.lines = s.lines ++
          [⟨cid,
            (yolo_bbox (bbox.getD 0 0) (bbox.getD 1 0) (bbox.getD 2 0) (bbox.getD 3 0) w h).1,
            (yolo_bbox (bbox.getD 0 0) (bbox.getD 1 0) (bbox.getD 2 0) (bbox.getD 3 0) w h).2.1,
            (yolo_bbox (bbox.getD 0 0) (bbox.getD 1 0) (bbox.getD 2 0) (bbox.getD 3 0) w h).2.2.1,
            (yolo_bbox (bbox.getD 0 0) (bbox.getD 1 0) (bbox.getD 2 0)
              (bbox.getD 3 0) w h).2.2.2⟩]) ∧
    (∀ (inst : Instance) (c : String), inst.cls = some c → ¬ c = "" →
      inst.subclass = some ("") →
      label_from_instance inst ("class_subclass") = some c) ∧
    (∀ (inst : Instance) (sb : String), inst.cls = some ("") →
      inst.subclass = some sb → ¬ sb = "" →
      label_from_instance inst ("class_subclass") = some sb) := by
  refine ⟨?_, ?_, ?_, ?_, ?_, ?_, ?_⟩
  · intro inst hc
    simp [label_from_instance, hc]
  · intro inst hc
    simp [label_from_instance, hc]
  · intro inst hc
    simp [label_from_instance, hc]
  · intro strict d src mode s inst lab s' hl h
    rw [(stepInstance_label_registered strict d src mode s inst lab s' hl h).1]
    exact registerLabel_lookup_isSome s.classes s.next_cid lab
  · intro strict d src mode s inst lab bbox w h hl hb hlen hw hh hdeg
    have hsome := registerLabel_lookup_isSome s.classes s.next_cid lab
    obtain ⟨cid, hcid⟩ := Option.isSome_iff_exists.mp hsome
    refine ⟨_, cid, stepInstance_emit strict d src mode s inst lab bbox w h
      hl hb hlen hw hh hdeg, hcid, ?_⟩
    simp [hcid]
  · intro inst c hc hcne hsb
    simp [label_from_instance, truthy, pyOr, hc, hcne, hsb]
  · intro inst sb hc hsb hsbne
    simp [label_from_instance, truthy, pyOr, hc, hsb, hsbne]

/-- An instance whose `class` field is the empty string, with a valid box. -/
def instEmpty : Instance := ⟨some 1, some (""), none, none, none, some [0, 0, 5, 5]⟩

/-- Witness for C10: the empty-string class is extracted as a label, gets
registered, and a line is emitted for it; a non-empty class beats an empty
subclass in `class_subclass` mode. -/
theorem C10_witness :
    label_from_instance instEmpty ("class") = some ("") ∧
    (∃ s' cid, stepInstance false (fun _ => none) ("i.png") ("class") loopTen instEmpty
        = Except.ok s' ∧ lookupD s'.classes ("") = some cid ∧
        s'.lines = [] ++
          [⟨cid, (yolo_bbox 0 0 5 5 10 10).1, (yolo_bbox 0 0 5 5 10 10).2.1,
            (yolo_bbox 0 0 5 5 10 10).2.2.1, (yolo_bbox 0 0 5 5 10 10).2.2.2⟩]) ∧
    label_from_instance (⟨some 1, some ("car"), some (""), none, none, none⟩ : Instance)
      ("class_subclass") = some ("car") := by
  have h := C10_empty_label
  refine ⟨h.1 instEmpty rfl, ?_, ?_⟩
  · have := h.2.2.2.2.1 false (fun _ => none) ("i.png") ("class") loopTen instEmpty
      ("") [0, 0, 5, 5] 10 10 (by decide) rfl (by decide) rfl rfl
      (by norm_num [yolo_bbox, clampC, min_def, max_def, degenTest])
    simpa [loopTen, instEmpty] using this
  · exact h.2.2.2.2.2.1 _ ("car") rfl (by decide) rfl

/-- Claim C1 counterexample: a run whose single instance carries the label
`"ghost"` but no bbox — the instance is skipped and counted, yet the Class
Registry still grows to contain `"ghost"`, and the only label file of the
run is empty, so the manifest label `"ghost"` has no emitted label line. -/
theorem C1_counterexample :
    ∃ st, runScenes cfgTol [sceneGhost] = Except.ok st ∧
      st.stats.skipped_instances = 1 ∧
      st.classes = [(("ghost" : String), 0)] ∧
      st.out_labels = [(("sA_img.txt" : String), [])] :=
  ⟨_, run_sceneGhost, rfl, rfl, rfl⟩

/-- Claim C1 (amended): per instance the steps run label-extraction → class
registration → bbox lookup → dims → normalization → emission; an instance
skipped for an absent label never touches the registry, but an instance
skipped later — for a missing or malformed bbox or a degenerate box — has
already updated the registry, since the class id is obtained right after
label extraction rather than after normalization. -/
theorem C1_step_order :
    (∀ (strict : Bool) (d : String → Option (Int × Int)) (src mode : String)
      (s : ImgLoop) (inst : Instance),
      label_from_instance inst mode = none →
      stepInstance strict d src mode s inst
        = Except.ok { s with skipped := s.skipped + 1 }) ∧
    (∀ (strict : Bool) (d : String → Option (Int × Int)) (src mode : String)
      (s : ImgLoop) (inst : Instance) (lab : String),
      label_from_instance inst mode = some lab → inst.bbox = none →
      stepInstance strict d src mode s inst =
        Except.ok { s with classes := (registerLabel s.classes s.next_cid lab).1,
                           next_cid := (registerLabel s.classes s.next_cid lab).2,
                           skipped := s.skipped + 1 }) ∧
    (∀ (strict : Bool) (d : String → Option (Int × Int)) (src mode : String)
      (s : ImgLoop) (inst : Instance) (lab : String) (bbox : List ℚ),
      label_from_instance inst mode = some lab → inst.bbox = some bbox →
      bbox.length ≠ 4 →
      stepInstance strict d src mode s inst =
        Except.ok { s with classes := (registerLabel s.classes s.next_cid lab).1,
                           next_cid := (registerLabel s.classes s.next_cid lab).2,
                           skipped := s.skipped + 1 }) ∧
    (∀ (strict : Bool) (d : String → Option (Int × Int)) (src mode : String)
      (s : ImgLoop) (inst : Instance) (lab : String) (bbox : List ℚ) (w h : ℚ),
      label_from_instance inst mode = some lab → inst.bbox = some bbox →
      bbox.length = 4 → s.w = some w → s.h = some h →
      degenTest (yolo_bbox (bbox.getD 0 0) (bbox.getD 1 0) (bbox.getD 2 0)
        (bbox.getD 3 0) w h) →
      stepInstance strict d src mode s inst =
        Except.ok { s with classes := (registerLabel s.classes s.next_cid lab).1,
                           next_cid := (registerLabel s.classes s.next_cid lab).2,
                           skipped := s.skipped + 1 }) ∧
    (∀ (strict : Bool) (d : String → Option (Int × Int)) (src mode : String)
      (s : ImgLoop) (inst : Instance) (lab : String) (s' : ImgLoop),
      label_from_instance inst mode = some lab →
      stepInstance strict d src mode s inst = Except.ok s' →
      s'.classes = (registerLabel s.classes s.next_cid lab).1 ∧
      s'.next_cid = (registerLabel s.classes s.next_cid lab).2) := by
  refine ⟨?_, ?_, ?_, ?_, ?_⟩
  · exact fun strict d src mode s inst hl =>
      stepInstance_label_none strict d src mode s inst hl
  · exact fun strict d src mode s inst lab hl hb =>
      stepInstance_bbox_none strict d src mode s inst lab hl hb
  · exact fun strict d src mode s inst lab bbox hl hb hlen =>
      stepInstance_bbox_malformed strict d src mode s inst lab bbox hl hb hlen
  · exact fun strict d src mode s inst lab bbox w h hl hb hlen hw hh hdeg =>
      stepInstance_degen strict d src mode s inst lab bbox w h hl hb hlen hw hh hdeg
  · exact fun strict d src mode s inst lab s' hl h =>
      stepInstance_label_registered strict d src mode s inst lab s' hl h

/-- Witness for C1: the bbox-less `"ghost"` instance grows the registry
while being skipped. -/
theorem C1_witness :
    stepInstance false (fun _ => none) ("i.png") ("class") loopTen instGhost
      = Except.ok ⟨[("ghost", 0)], 1, 1, some 10, some 10, []⟩ := by
  have h := C1_step_order.2.1 false (fun _ => none) ("i.png") ("class") loopTen instGhost
    ("ghost") (by decide) rfl
  rw [h]
  simp [loopTen, registerLabel, lookupD]

/-- Claim C2 counterexample: two images of one scene derive the same output
filename; at the end of the run the image was copied once (from the first),
but the label file holds the second image's content — the previously
written label file was overwritten, not kept. -/
theorem C2_counterexample :
    ∃ st, runScenes cfgTol [sceneDup] = Except.ok st ∧
      st.out_images = ["sB_img.png"] ∧
      lookupD st.out_labels ("sB_img.txt") = some [⟨1, 1/4, 1/4, 1/2, 1/2⟩] ∧
      ¬ lookupD st.out_labels ("sB_img.txt") = some [⟨0, 1/4, 1/4, 1/2, 1/2⟩] := by
  refine ⟨_, run_sceneDup, rfl, by simp [lookupD], ?_⟩
  simp [lookupD]

/-- Claim C2 (amended): when a processed image derives an already-used
output filename, the image copy is skipped (the first-written image is
kept, and every output image name is copied at most once per run), but the
label file is rewritten unconditionally, so the later image's label content
replaces the earlier one. -/
theorem C2_collision_behavior :
    (∀ (cfg : Config) (scene : Scene) (insts : List Instance) (st : ConvState)
      (meta : Meta) (src : String) (s : ImgLoop),
      resolve_image_path scene.dir meta.file_name cfg.image_extensions = some src →
      runList (stepInstance cfg.strict scene.dims_of src cfg.label_field)
        ⟨st.classes, st.next_cid, st.stats.skipped_instances, meta.width, meta.height, []⟩
        insts = Except.ok s →
      ∃ st', processImage cfg scene insts st meta = Except.ok st' ∧
        ((scene.name ++ "_" ++ lastComponent src) ∈ st.out_images →
          st'.out_images = st.out_images) ∧
        ((scene.name ++ "_" ++ lastComponent src) ∉ st.out_images →
          st'.out_images = st.out_images ++ [scene.name ++ "_" ++ lastComponent src]) ∧
        lookupD st'.out_labels (labelName (scene.name ++ "_" ++ lastComponent src))
          = some s.lines) ∧
    (∀ cfg scenes st, runScenes cfg scenes = Except.ok st → st.out_images.Nodup) := by
  constructor
  · intro cfg scene insts st meta src s hres hrun
    refine ⟨_, processImage_resolved_ok cfg scene insts st meta src s hres hrun,
      ?_, ?_, lookupD_insertDict_self _ _ _⟩
    · intro hmem
      simp [hmem]
    · intro hmem
      simp [hmem]
  · exact fun cfg scenes st h => (runScenes_inv cfg scenes st h).2.2

/-- A mid-run state in which `sB_img.png` was already copied and its label
file already written with the first image's line. -/
def stAfterFirst : ConvState :=
  ⟨[("a", 0)], 1, ⟨1, 1, 0, 1⟩, ["sB_img.png"],
   [("sB_img.txt", [⟨0, 1/4, 1/4, 1/2, 1/2⟩])]⟩

/-- Witness for C2: processing a second image with the same derived name
leaves the copied-images list unchanged but replaces the label file (here
with an empty instance list, hence empty content). -/
theorem C2_witness :
    ∃ st', processImage cfgTol sceneDup [] stAfterFirst ⟨some ("img.png"), some 10, some 10⟩
        = Except.ok st' ∧
      st'.out_images = ["sB_img.png"] ∧
      lookupD st'.out_labels ("sB_img.txt") = some [] := by
  obtain ⟨st', heq, hkeep, -, hlook⟩ :=
    C2_collision_behavior.1 cfgTol sceneDup [] stAfterFirst
      ⟨some ("img.png"), some 10, some 10⟩ ("img.png")
      ⟨stAfterFirst.classes, stAfterFirst.next_cid,
        stAfterFirst.stats.skipped_instances, some 10, some 10, []⟩
      (by decide) rfl
  have hname : labelName (sceneDup.name ++ "_" ++ lastComponent ("img.png"))
      = "sB_img.txt" := by decide
  rw [hname] at hlook
  refine ⟨st', heq, ?_, hlook⟩
  have := hkeep (by decide)
  simpa [stAfterFirst] using this

end AiverseYolo
